import Mathlib

/-!
Verification of the NFT static-data pipeline: shallow embedding of the
metadata-resolution, validation, caching, pinning, gateway-selection and
error-accounting code, together with theorems settling the specification
claims about those functions.

Conventions of the embedding:
* JS strings are `String` / `List Char`; regular-expression tests are
  translated into explicit character-class predicates and scanners.
* Network and database effects are modelled by an explicit world record
  (the responses the external services would give) threaded through the
  functions, together with counters recording how many requests of each
  kind were issued.
* JS numbers that hold integer counts are `Nat`; score arithmetic of the
  gateway selector is `ℚ` (exact rationals in place of IEEE doubles; none
  of the settled claims depends on rounding).
-/

namespace NftStaticData

/-! ### Generic list helpers -/

/-- Case-insensitive anchored pattern check: the pattern `p` (given in
lowercase) matches the first `p.length` characters of `l` after lowering
them, mirroring a JS regex literal with the `i` flag (or a comparison on
`url.toLowerCase()`). -/
def startsWithCI : List Char → List Char → Bool
  | [], _ => true
  | _ :: _, [] => false
  | p :: ps, c :: cs => p == c.toLower && startsWithCI ps cs

/-- Case-sensitive anchored pattern check. -/
def startsWithCS : List Char → List Char → Bool
  | [], _ => true
  | _ :: _, [] => false
  | p :: ps, c :: cs => p == c && startsWithCS ps cs

theorem takeWhile_all {p : Char → Bool} {l : List Char}
    (h : ∀ c ∈ l, p c = true) : l.takeWhile p = l := by
  induction l with
  | nil => rfl
  | cons c cs ih =>
    simp [List.takeWhile_cons, h c (List.mem_cons_self c cs), ih
      (fun x hx => h x (List.mem_cons_of_mem c hx))]

theorem takeWhile_append_stop {p : Char → Bool} {l r : List Char}
    (h : ∀ c ∈ l, p c = true)
    (hr : r = [] ∨ ∃ c cs, r = c :: cs ∧ p c = false) :
    (l ++ r).takeWhile p = l := by
  induction l with
  | nil =>
    rcases hr with rfl | ⟨c, cs, rfl, hc⟩
    · rfl
    · simp [List.takeWhile_cons, hc]
  | cons c cs ih =>
    simp [List.cons_append, List.takeWhile_cons,
      h c (List.mem_cons_self c cs), ih (fun x hx => h x (List.mem_cons_of_mem c hx))]

/-! ### Content-identifier validators (tokenStaticDataHelper)

Source regexes:
* `isValidCID`:        `/^(Qm[1-9A-HJ-NP-Za-km-z]{44}|b[0-9A-Za-z]{58})$/`
* `isValidArweaveCID`: `/^[a-zA-Z0-9_-]{43}$/`
-/

/-- Character class `[1-9A-HJ-NP-Za-km-z]` (base58: no `0`, `O`, `I`, `l`). -/
def isBase58Char (c : Char) : Bool :=
  ( '1' ≤ c && c ≤ '9') || ( 'A' ≤ c && c ≤ 'H') || ( 'J' ≤ c && c ≤ 'N') ||
  ( 'P' ≤ c && c ≤ 'Z') || ( 'a' ≤ c && c ≤ 'k') || ( 'm' ≤ c && c ≤ 'z')

/-- Character class `[0-9A-Za-z]`. -/
def isAlnumChar (c : Char) : Bool :=
  ( '0' ≤ c && c ≤ '9') || ( 'A' ≤ c && c ≤ 'Z') || ( 'a' ≤ c && c ≤ 'z')

/-- Character class `[a-zA-Z0-9_-]` of the Arweave identifier regex. -/
def isArweaveChar (c : Char) : Bool :=
  ( 'a' ≤ c && c ≤ 'z') || ( 'A' ≤ c && c ≤ 'Z') || ( '0' ≤ c && c ≤ '9') ||
  c == '_' || c == '-'

/-- First alternative of the `isValidCID` regex: `Qm` + 44 base58 characters. -/
def matchQmV0 : List Char → Bool
  | c1 :: c2 :: rest =>
    c1 == 'Q' && c2 == 'm' && rest.length == 44 && rest.all isBase58Char
  | _ => false

/-- Second alternative of the `isValidCID` regex: `b` + 58 characters of
`[0-9A-Za-z]` (the source regex really uses this alphanumeric class). -/
def matchBV1 : List Char → Bool
  | c :: rest => c == 'b' && rest.length == 58 && rest.all isAlnumChar
  | [] => false

/-- Embedding of `isValidCID` (tokenStaticDataHelper). -/
def isValidCID (s : String) : Bool :=
  matchQmV0 s.toList || matchBV1 s.toList

/-- Embedding of `isValidArweaveCID`: 43 characters of `[a-zA-Z0-9_-]`. -/
def isValidArweaveCID (s : String) : Bool :=
  s.toList.length == 43 && s.toList.all isArweaveChar

/-! Specification-side validator descriptions, written after the words of
the spec (they are compared with the code-side definitions above). -/

/-- Character class of lowercase base32 (the alphabet of a multibase
`b`-prefixed CIDv1): `[a-z2-7]`. -/
def isBase32Char (c : Char) : Bool :=
  ( 'a' ≤ c && c ≤ 'z') || ( '2' ≤ c && c ≤ '7')

/-- Spec wording: a 46-character string beginning `Qm` whose remaining
characters are base58 (alphabet excluding `0 O I l`). -/
def specCIDv0 (s : String) : Prop :=
  s.toList.length = 46 ∧ s.toList.take 2 = ['Q', 'm'] ∧
    ∀ c ∈ s.toList.drop 2, isBase58Char c = true

instance (s : String) : Decidable (specCIDv0 s) := by
  unfold specCIDv0; infer_instance

/-- Claim wording as stated: a 59-character string beginning `b` whose
remaining characters are base32. -/
def specCIDv1Base32 (s : String) : Prop :=
  s.toList.length = 59 ∧ s.toList.take 1 = ['b'] ∧
    ∀ c ∈ s.toList.drop 1, isBase32Char c = true

instance (s : String) : Decidable (specCIDv1Base32 s) := by
  unfold specCIDv1Base32; infer_instance

/-- Amended wording: a 59-character string beginning `b` whose remaining
characters are alphanumeric `[0-9A-Za-z]`, as the source regex requires. -/
def specCIDv1Alnum (s : String) : Prop :=
  s.toList.length = 59 ∧ s.toList.take 1 = ['b'] ∧
    ∀ c ∈ s.toList.drop 1, isAlnumChar c = true

instance (s : String) : Decidable (specCIDv1Alnum s) := by
  unfold specCIDv1Alnum; infer_instance

/-- Spec wording: a 43-character string over `[A-Za-z0-9_-]`. -/
def specArweave (s : String) : Prop :=
  s.toList.length = 43 ∧ ∀ c ∈ s.toList, isArweaveChar c = true

instance (s : String) : Decidable (specArweave s) := by
  unfold specArweave; infer_instance

/-! ### Retry backoff of the content fetcher (metadataScrapeHelper)

Source line (after `depth` and `seed` have been incremented for the
current attempt):
`const sleepTime = ((12 * (depth ** 2) * seed) % 100) * (depth % 5);`
and, on a thrown fetch error, the extra linear penalty
`sleepTime + 225 * depth` for `depth > 8` else `sleepTime + 30 * depth`. -/

/-- Embedding of the backoff formula of `fetchIPFSJson`. -/
def backoffSleepMs (depth seed : Nat) : Nat :=
  ((12 * depth ^ 2 * seed) % 100) * (depth % 5)

/-- Embedding of the delay used on the exception path of `fetchIPFSJson`. -/
def backoffCatchMs (depth seed : Nat) : Nat :=
  if depth > 8 then backoffSleepMs depth seed + 225 * depth
  else backoffSleepMs depth seed + 30 * depth

/-! ### Claim C5 — validators -/

/-- C5 counterexample: `isValidCID` accepts the 59-character string
`b888…8`, although `8` is not a base32 character, so the validator does
not accept exactly the `b`-prefixed base32 strings; it accepts the wider
alphanumeric alphabet `[0-9A-Za-z]` of the source regex. -/
theorem C5_counterexample :
    isValidCID (String.mk ( 'b' :: List.replicate 58 '8')) = true ∧
    ¬ specCIDv1Base32 (String.mk ( 'b' :: List.replicate 58 '8')) ∧
    ¬ specCIDv0 (String.mk ( 'b' :: List.replicate 58 '8')) := by
  refine ⟨by decide, by decide, by decide⟩

theorem matchQmV0_eq (l : List Char) :
    (matchQmV0 l = true) ↔
      (l.length = 46 ∧ l.take 2 = ['Q', 'm'] ∧ ∀ c ∈ l.drop 2, isBase58Char c = true) := by
  match l with
  | [] => simp [matchQmV0]
  | [c1] => simp [matchQmV0]
  | c1 :: c2 :: rest =>
    simp only [matchQmV0, Bool.and_eq_true, beq_iff_eq, List.all_eq_true,
      List.length_cons, List.take, List.drop]
    constructor
    · rintro ⟨⟨⟨h1, h2⟩, h3⟩, h4⟩
      exact ⟨by omega, by simp [h1, h2], h4⟩
    · rintro ⟨h1, h2, h4⟩
      simp only [List.cons.injEq] at h2
      exact ⟨⟨⟨h2.1, h2.2.1⟩, by omega⟩, h4⟩

theorem matchBV1_eq (l : List Char) :
    (matchBV1 l = true) ↔
      (l.length = 59 ∧ l.take 1 = ['b'] ∧ ∀ c ∈ l.drop 1, isAlnumChar c = true) := by
  match l with
  | [] => simp [matchBV1]
  | c :: rest =>
    simp only [matchBV1, Bool.and_eq_true, beq_iff_eq, List.all_eq_true,
      List.length_cons, List.take, List.drop]
    constructor
    · rintro ⟨⟨h1, h3⟩, h4⟩
      exact ⟨by omega, by simp [h1], h4⟩
    · rintro ⟨h1, h2, h4⟩
      simp only [List.cons.injEq] at h2
      exact ⟨⟨h2.1, by omega⟩, h4⟩

/-- C5 amended: `isValidCID` accepts exactly the 46-character `Qm` base58
strings together with the 59-character `b`-prefixed alphanumeric
(`[0-9A-Za-z]`) strings; `isValidArweaveCID` accepts exactly the
43-character `[A-Za-z0-9_-]` strings and rejects every string of either
IPFS CID shape (their lengths differ from 43). -/
theorem C5_validators_amended :
    (∀ s : String, isValidCID s = true ↔ (specCIDv0 s ∨ specCIDv1Alnum s)) ∧
    (∀ s : String, isValidArweaveCID s = true ↔ specArweave s) ∧
    (∀ s : String, specCIDv0 s ∨ specCIDv1Alnum s → isValidArweaveCID s = false) := by
  refine ⟨?_, ?_, ?_⟩
  · intro s
    simp only [isValidCID, Bool.or_eq_true, matchQmV0_eq, matchBV1_eq]
    rfl
  · intro s
    simp only [isValidArweaveCID, specArweave, Bool.and_eq_true, beq_iff_eq,
      List.all_eq_true]
  · intro s h
    have hlen : s.toList.length ≠ 43 := by
      rcases h with h | h
      · rw [h.1]; omega
      · rw [h.1]; omega
    cases h43 : (s.toList.length == 43) with
    | false =>
      unfold isValidArweaveCID
      rw [h43, Bool.false_and]
    | true => exact absurd (eq_of_beq h43) hlen

/-- C5 witness for the amended theorem: concrete evaluations through the
quantified statements, discharging the hypotheses of the third part. -/
theorem C5_validators_amended_witness :
    (isValidCID "QmYwAPJzv5CZsnA625s3Xf2nemtYgPpHdWEz79ojWnPbdG" = true) ∧
    (specCIDv0 "QmYwAPJzv5CZsnA625s3Xf2nemtYgPpHdWEz79ojWnPbdG") ∧
    (isValidArweaveCID "QmYwAPJzv5CZsnA625s3Xf2nemtYgPpHdWEz79ojWnPbdG" = false) := by
  have h0 : specCIDv0 "QmYwAPJzv5CZsnA625s3Xf2nemtYgPpHdWEz79ojWnPbdG" := by decide
  refine ⟨(C5_validators_amended.1 _).2 (Or.inl h0), h0,
    C5_validators_amended.2.2 _ (Or.inl h0)⟩

/-! ### Claim C2 — retry backoff -/

/-- C2 counterexample: with the seed fixed at 1 the delay at depth 3 (24 ms)
is smaller than the delay at depth 2 (96 ms), so the backoff is not
strictly increasing in depth beyond depth 1. -/
theorem C2_counterexample :
    ¬ (∀ seed d1 d2 : Nat, 1 < d1 → d1 < d2 →
        backoffSleepMs d1 seed < backoffSleepMs d2 seed) := by
  intro h
  have h96 : backoffSleepMs 2 1 = 96 := by decide
  have h24 : backoffSleepMs 3 1 = 24 := by decide
  have := h 1 2 3 (by decide) (by decide)
  omega

/-- C2 amended: the backoff is not monotone in depth (see the
counterexample: it drops from depth 2 to depth 3, and vanishes whenever
the depth is a multiple of 5), but the regression aspect of the claim
holds — with true exponentiation the depth-2 delay does not collapse to
the depth-0 value: the depth-0 delay is 0 and, for every seed not
divisible by 25, the depth-2 delay is strictly positive. -/
theorem C2_backoff_amended (seed : Nat) (h : seed % 25 ≠ 0) :
    backoffSleepMs 0 seed = 0 ∧ 0 < backoffSleepMs 2 seed := by
  constructor
  · simp [backoffSleepMs]
  · have h48 : (12 * 2 ^ 2 * seed) % 100 ≠ 0 := by
      intro h0
      have heq : 12 * 2 ^ 2 * seed = 48 * seed := by ring
      have hdvd : (100 : Nat) ∣ 48 * seed := by
        rw [← heq]; exact Nat.dvd_of_mod_eq_zero h0
      have h25 : (25 : Nat) ∣ 48 * seed :=
        dvd_trans (by norm_num) hdvd
      have hcop : Nat.Coprime 25 48 := by decide
      have hs : (25 : Nat) ∣ seed := hcop.dvd_of_dvd_mul_left h25
      exact h (Nat.mod_eq_zero_of_dvd hs)
    unfold backoffSleepMs
    have h2 : (2 : Nat) % 5 = 2 := by norm_num
    rw [h2]
    exact Nat.mul_pos (Nat.pos_of_ne_zero h48) (by norm_num)

/-- C2 witness: the amended theorem instantiated at seed 1. -/
theorem C2_backoff_amended_witness :
    (1 : Nat) % 25 ≠ 0 ∧ (backoffSleepMs 0 1 = 0 ∧ 0 < backoffSleepMs 2 1) :=
  ⟨by decide, C2_backoff_amended 1 (by decide)⟩

/-! ### CID cache and pinning client (tokenStaticDataHelper / filebaseHelper)

The HTTP services are modelled by a world record holding the responses
they would give; the process state (in-memory maps, the cidDB rows, and
request counters) is threaded explicitly.  Database requests are modelled
as succeeding; the only failure modelled is the one the settled claims
are about: a transport error of the `axios.post` pin-creation request
(`postOutcome = none`), which the source turns into a thrown error. -/

/-- Canned service responses for one run.
* `gatewayStatus`: outcome of the `axios.get` probe of the project gateway
  in `checkPinHttp` — `some s` is an HTTP status (2xx resolves, anything
  else is the `error.status` seen in the catch block), `none` is a thrown
  error whose `status` field is `undefined`.
* `postOutcome`: the pin-creation `axios.post` — `some s` is a response
  with status `s` (`validateStatus: () => true` accepts every status),
  `none` is a transport error (the promise rejects).
* `statusResults`: `checkPinStatus` — `none` is a thrown request error,
  `some none` is a response whose `data.results` is `undefined`,
  `some (some l)` is the list of result statuses. -/
structure PinWorld where
  gatewayStatus : Option Int
  postOutcome : Option Int
  statusResults : Option (Option (List String))

/-- Process state: the module-level `cidMap` of tokenStaticDataHelper, the
module-level `cidSet` of filebaseHelper, the `cid` rows of the cidDB
collection, counters of issued requests, and whether the un-awaited
`confirmPin` was launched. -/
structure PinSt where
  cidMap : List (String × Bool)
  cidSet : List String
  db : List String
  gatewayProbes : Nat
  pinApiCalls : Nat
  statusQueries : Nat
  dbQueries : Nat
  dbWrites : Nat
  confirmLaunched : Bool

/-- Fresh state over an empty database. -/
def emptyPinSt : PinSt :=
  { cidMap := [], cidSet := [], db := [], gatewayProbes := 0, pinApiCalls := 0,
    statusQueries := 0, dbQueries := 0, dbWrites := 0, confirmLaunched := false }

/-- Embedding of `checkPinHttp` (filebaseHelper): a memoised HTTP probe of
the project gateway.  A memoised CID short-circuits to 200; otherwise one
GET is issued and a 2xx outcome is memoised. -/
def checkPinHttp (w : PinWorld) (st : PinSt) (cid : String) : Option Int × PinSt :=
  if cid ∈ st.cidSet then (some 200, st)
  else
    let st1 := { st with gatewayProbes := st.gatewayProbes + 1 }
    match w.gatewayStatus with
    | some s =>
      if 200 ≤ s ∧ s < 300 then (some s, { st1 with cidSet := st1.cidSet ++ [cid] })
      else (some s, st1)
    | none => (none, st1)

/-- Embedding of the JS test `isPinLive >= 200 && isPinLive < 300`
(`undefined` compares false). -/
def statusOk : Option Int → Bool
  | some s => 200 ≤ s && s < 300
  | none => false

/-- Embedding of `checkCIDExists`: an invalid (or empty, which is also
invalid) identifier is rejected locally; a map hit returns the memo;
a miss queries the database once and memoises only a present outcome. -/
def checkCIDExists (st : PinSt) (cid : String) : Bool × PinSt :=
  if isValidCID cid = false then (false, st)
  else
    match st.cidMap.lookup cid with
    | some v => (v, st)
    | none =>
      let st1 := { st with dbQueries := st.dbQueries + 1 }
      if cid ∈ st.db then (true, { st1 with cidMap := st1.cidMap ++ [(cid, true)] })
      else (false, st1)

/-- Embedding of `checkCIDsMissing`: one filtered database query. -/
def checkCIDsMissing (st : PinSt) (cids : List String) : List String × PinSt :=
  (cids.filter (fun c => decide (c ∉ st.db)),
    { st with dbQueries := st.dbQueries + 1 })

/-- Embedding of `writeCIDData`: drops identifiers already present, drops
invalid ones, and creates the rest in one batch (creation errors are
caught and only logged by the source, so nothing propagates). -/
def writeCIDData (st : PinSt) (cids : List String) : PinSt :=
  let (missing, st1) := checkCIDsMissing st cids
  let valid := missing.filter (fun c => isValidCID c)
  if valid = [] then st1
  else { st1 with db := st1.db ++ valid, dbWrites := st1.dbWrites + 1 }

/-- Embedding of `pinIPFS`.  If the gateway probe reports the content
live, it backfills the database record if missing and fires `confirmPin`
without awaiting it (recorded as `confirmLaunched`; with its default
`forcePin = false` that call never issues a pin creation).  Otherwise one
pin-creation POST is issued; every status is accepted, and a transport
error is re-thrown (`Except.error`).  Unless `skipDB`, the identifier is
then written to the database, and the function returns `true`. -/
def pinIPFS (w : PinWorld) (st : PinSt) (cid name : String)
    (_image skipDB : Bool) : Except String Bool × PinSt :=
  let (live, st1) := checkPinHttp w st cid
  if statusOk live then
    let (ex, st2) := checkCIDExists st1 cid
    let st3 := if ex then st2 else writeCIDData st2 [cid]
    let st4 := { st3 with confirmLaunched := true }
    let st5 := if skipDB then st4 else writeCIDData st4 [cid]
    (Except.ok true, st5)
  else
    let st2 := { st1 with pinApiCalls := st1.pinApiCalls + 1 }
    match w.postOutcome with
    | some _ =>
      let st3 := if skipDB then st2 else writeCIDData st2 [cid]
      (Except.ok true, st3)
    | none =>
      (Except.error ("Error pinning CID " ++ cid ++ " - " ++ name), st2)

/-- Embedding of `confirmPin`: a string failing `isValidCID` is rejected
locally with no request; otherwise one status query is issued (a thrown
request error propagates), a `pinned` head result marks the database
record confirmed, and with `forcePin` set a fresh `pinIPFS` is issued as
recovery when not pinned. -/
def confirmPin (w : PinWorld) (st : PinSt) (cid : String) (forcePin : Bool) :
    Except String Bool × PinSt :=
  if isValidCID cid = false then (Except.ok false, st)
  else
    let st1 := { st with statusQueries := st.statusQueries + 1 }
    match w.statusResults with
    | none => (Except.error ("Error checking pin status for " ++ cid), st1)
    | some results =>
      let pinned := match results with
        | some (s :: _) => s == "pinned"
        | _ => false
      let st2 := if pinned then { st1 with dbWrites := st1.dbWrites + 1 } else st1
      if forcePin && !pinned then
        match pinIPFS w st2 cid "Forced Pin" false true with
        | (Except.ok _, st3) => (Except.ok true, st3)
        | (Except.error e, st3) => (Except.error e, st3)
      else (Except.ok pinned, st2)

/-- Decidable equality for pin outcomes, so concrete runs can be settled
by `decide`. -/
def exceptEqDec : (a b : Except String Bool) → Decidable (a = b)
  | .ok x, .ok y =>
    if h : x = y then isTrue (by rw [h])
    else isFalse (fun hc => h (by injection hc))
  | .error x, .error y =>
    if h : x = y then isTrue (by rw [h])
    else isFalse (fun hc => h (by injection hc))
  | .ok _, .error _ => isFalse (fun hc => by injection hc)
  | .error _, .ok _ => isFalse (fun hc => by injection hc)

instance : DecidableEq (Except String Bool) := exceptEqDec

/-! Helper lemmas: which state fields each database helper leaves alone. -/

theorem writeCIDData_pinApiCalls (st : PinSt) (cids : List String) :
    (writeCIDData st cids).pinApiCalls = st.pinApiCalls := by
  simp only [writeCIDData, checkCIDsMissing]
  split <;> rfl

theorem writeCIDData_gatewayProbes (st : PinSt) (cids : List String) :
    (writeCIDData st cids).gatewayProbes = st.gatewayProbes := by
  simp only [writeCIDData, checkCIDsMissing]
  split <;> rfl

theorem writeCIDData_confirmLaunched (st : PinSt) (cids : List String) :
    (writeCIDData st cids).confirmLaunched = st.confirmLaunched := by
  simp only [writeCIDData, checkCIDsMissing]
  split <;> rfl

theorem checkCIDExists_pinApiCalls (st : PinSt) (cid : String) :
    (checkCIDExists st cid).2.pinApiCalls = st.pinApiCalls := by
  unfold checkCIDExists
  split
  · rfl
  · split <;> (try split) <;> rfl

theorem checkCIDExists_gatewayProbes (st : PinSt) (cid : String) :
    (checkCIDExists st cid).2.gatewayProbes = st.gatewayProbes := by
  unfold checkCIDExists
  split
  · rfl
  · split <;> (try split) <;> rfl

/-- Helper: `checkPinHttp` never touches the pin-creation counter. -/
theorem checkPinHttp_pinApiCalls (w : PinWorld) (st : PinSt) (cid : String) :
    (checkPinHttp w st cid).2.pinApiCalls = st.pinApiCalls := by
  unfold checkPinHttp
  split
  · rfl
  · split <;> (try split) <;> rfl

/-- Helper: when the gateway would answer 2xx, `checkPinHttp` reports the
pin live whether or not the CID was already memoised. -/
theorem checkPinHttp_live (w : PinWorld) (st : PinSt) (cid : String)
    (hlive : statusOk w.gatewayStatus = true) :
    statusOk (checkPinHttp w st cid).1 = true := by
  unfold checkPinHttp
  split
  · show statusOk (some 200) = true
    decide
  · cases hg : w.gatewayStatus with
    | none => rw [hg] at hlive; simp [statusOk] at hlive
    | some s =>
      rw [hg] at hlive
      dsimp only
      split
      · exact hlive
      · rename_i hc
        simp only [statusOk, Bool.and_eq_true, decide_eq_true_eq] at hlive
        exact absurd hlive hc

/-- Helper: when the gateway reports the content live (2xx), `pinIPFS`
takes the already-pinned branch: no pin-creation POST is issued, the
un-awaited `confirmPin` is launched, and the call returns `true`. -/
theorem pinIPFS_live (w : PinWorld) (st : PinSt) (cid name : String)
    (im sk : Bool) (hlive : statusOk w.gatewayStatus = true) :
    (pinIPFS w st cid name im sk).2.pinApiCalls = st.pinApiCalls ∧
    (pinIPFS w st cid name im sk).2.confirmLaunched = true ∧
    (pinIPFS w st cid name im sk).1 = Except.ok true := by
  rcases hpair : checkPinHttp w st cid with ⟨live, st1⟩
  have h1 : statusOk live = true := by
    have h := checkPinHttp_live w st cid hlive
    rw [hpair] at h
    exact h
  have h2 : st1.pinApiCalls = st.pinApiCalls := by
    have h := checkPinHttp_pinApiCalls w st cid
    rw [hpair] at h
    exact h
  unfold pinIPFS
  rw [hpair]
  dsimp only
  rw [h1]
  rw [if_pos rfl]
  rcases hex : checkCIDExists st1 cid with ⟨ex, st2⟩
  have h3 : st2.pinApiCalls = st1.pinApiCalls := by
    have h := checkCIDExists_pinApiCalls st1 cid
    rw [hex] at h
    exact h
  cases ex <;> cases sk <;>
    simp [writeCIDData_pinApiCalls, writeCIDData_confirmLaunched, h2, h3]

/-! ### Claim C1 — pin outcome semantics -/

/-- C1 counterexample: with the content not live on the gateway (status
404) and the pinning service answering the pin-creation POST with a
non-2xx status (500), `pinIPFS` still returns `true` after issuing one
pin request — not `false` as the claim states; and when the POST fails
with a transport error, `pinIPFS` throws instead of returning `false`. -/
theorem C1_counterexample :
    (pinIPFS ⟨some 404, some 500, some (some [])⟩ emptyPinSt
        "QmYwAPJzv5CZsnA625s3Xf2nemtYgPpHdWEz79ojWnPbdG" "meta" false false).1 =
      Except.ok true ∧
    (pinIPFS ⟨some 404, some 500, some (some [])⟩ emptyPinSt
        "QmYwAPJzv5CZsnA625s3Xf2nemtYgPpHdWEz79ojWnPbdG" "meta" false false).2.pinApiCalls = 1 ∧
    (pinIPFS ⟨some 404, none, some (some [])⟩ emptyPinSt
        "QmYwAPJzv5CZsnA625s3Xf2nemtYgPpHdWEz79ojWnPbdG" "meta" false false).1 =
      Except.error
        "Error pinning CID QmYwAPJzv5CZsnA625s3Xf2nemtYgPpHdWEz79ojWnPbdG - meta" := by
  refine ⟨by decide, by decide, by decide⟩

/-- C1 amended: `pinIPFS` never returns `false` — every non-throwing call
returns `true` whatever status the pinning service answers with (all
statuses are accepted via `validateStatus`), and a transport error on the
pin-creation request makes the call throw rather than return `false`. -/
theorem C1_pinIPFS_amended (w : PinWorld) (st : PinSt) (cid name : String)
    (im sk : Bool) :
    ((pinIPFS w st cid name im sk).1 ≠ Except.ok false) ∧
    (cid ∉ st.cidSet → statusOk w.gatewayStatus = false → w.postOutcome = none →
      (pinIPFS w st cid name im sk).1 =
        Except.error ("Error pinning CID " ++ cid ++ " - " ++ name)) := by
  constructor
  · rcases hpair : checkPinHttp w st cid with ⟨live, st1⟩
    unfold pinIPFS
    rw [hpair]
    by_cases hs : statusOk live = true
    · simp [hs]
    · simp only [Bool.not_eq_true] at hs
      simp only [hs, Bool.false_eq_true, if_false]
      cases w.postOutcome <;> simp
  · intro hmem hgw hpost
    have hpair : checkPinHttp w st cid =
        (w.gatewayStatus, { st with gatewayProbes := st.gatewayProbes + 1 }) := by
      unfold checkPinHttp
      rw [if_neg hmem]
      cases hg : w.gatewayStatus with
      | none => rfl
      | some s =>
        have hc : ¬(200 ≤ s ∧ s < 300) := by
          intro hss
          rw [hg] at hgw
          simp [statusOk, hss.1, hss.2] at hgw
        dsimp only
        rw [if_neg hc]
    unfold pinIPFS
    rw [hpair]
    dsimp only
    simp only [hgw, Bool.false_eq_true, if_false, hpost]

/-- C1 witness: the amended theorem at the counterexample inputs. -/
theorem C1_pinIPFS_amended_witness :
    ("QmYwAPJzv5CZsnA625s3Xf2nemtYgPpHdWEz79ojWnPbdG" ∉ emptyPinSt.cidSet ∧
      statusOk (some 404) = false) ∧
    (pinIPFS ⟨some 404, none, some (some [])⟩ emptyPinSt
        "QmYwAPJzv5CZsnA625s3Xf2nemtYgPpHdWEz79ojWnPbdG" "meta" false false).1 =
      Except.error
        "Error pinning CID QmYwAPJzv5CZsnA625s3Xf2nemtYgPpHdWEz79ojWnPbdG - meta" :=
  ⟨⟨by decide, by decide⟩,
    (C1_pinIPFS_amended ⟨some 404, none, some (some [])⟩ emptyPinSt
      "QmYwAPJzv5CZsnA625s3Xf2nemtYgPpHdWEz79ojWnPbdG" "meta" false false).2
      (by decide) (by decide) rfl⟩

/-! ### Claim C3 — existence-check memoisation -/

/-- Helper: association-list lookup skips a block without the key. -/
theorem lookup_append_none {m : List (String × Bool)} {k : String}
    (h : m.lookup k = none) (l2 : List (String × Bool)) :
    (m ++ l2).lookup k = l2.lookup k := by
  induction m with
  | nil => rfl
  | cons p ps ih =>
    rcases p with ⟨a, b⟩
    simp only [List.lookup] at h ⊢
    cases hk : (k == a) with
    | true => rw [hk] at h; simp at h
    | false =>
      rw [hk] at h
      simp only [List.cons_append, List.lookup, hk]
      exact ih h

/-- C3 counterexample: for a well-formed CID absent from the database,
two immediately successive `checkCIDExists` calls issue two database
queries — the absent outcome is not memoised (the map stays empty), so
the second check is not served from memory as the claim states. -/
theorem C3_counterexample :
    (checkCIDExists (checkCIDExists emptyPinSt
        "QmT5NvUtoM5nWFfrQdVrFtvGfKFmG7AHE8P34isapyhCxX").2
        "QmT5NvUtoM5nWFfrQdVrFtvGfKFmG7AHE8P34isapyhCxX").2.dbQueries = 2 ∧
    (checkCIDExists (checkCIDExists emptyPinSt
        "QmT5NvUtoM5nWFfrQdVrFtvGfKFmG7AHE8P34isapyhCxX").2
        "QmT5NvUtoM5nWFfrQdVrFtvGfKFmG7AHE8P34isapyhCxX").2.cidMap = [] := by
  refine ⟨by decide, by decide⟩

/-- C3 amended: on a map miss `checkCIDExists` queries the database once,
but memoises only the present outcome.  A present identifier is cached,
so the repeated check issues no second query; an absent identifier is not
cached, and the immediately repeated check queries the database again. -/
theorem C3_checkCIDExists_amended (st : PinSt) (cid : String)
    (hv : isValidCID cid = true) (hmiss : st.cidMap.lookup cid = none) :
    (cid ∈ st.db →
      (checkCIDExists st cid).1 = true ∧
      (checkCIDExists (checkCIDExists st cid).2 cid).1 = true ∧
      (checkCIDExists (checkCIDExists st cid).2 cid).2.dbQueries = st.dbQueries + 1) ∧
    (cid ∉ st.db →
      (checkCIDExists st cid).1 = false ∧
      (checkCIDExists (checkCIDExists st cid).2 cid).2.dbQueries = st.dbQueries + 2 ∧
      (checkCIDExists (checkCIDExists st cid).2 cid).2.cidMap = st.cidMap) := by
  have hnv : ¬(isValidCID cid = false) := by simp [hv]
  constructor
  · intro hdb
    have h1 : checkCIDExists st cid =
        (true, { st with
          dbQueries := st.dbQueries + 1,
          cidMap := st.cidMap ++ [(cid, true)] }) := by
      unfold checkCIDExists
      rw [if_neg hnv, hmiss]
      dsimp only
      rw [if_pos hdb]
    have hlk : (st.cidMap ++ [(cid, true)]).lookup cid = some true := by
      rw [lookup_append_none hmiss]
      simp [List.lookup]
    refine ⟨by rw [h1], ?_, ?_⟩
    · rw [h1]
      unfold checkCIDExists
      rw [if_neg hnv]
      dsimp only
      rw [hlk]
    · rw [h1]
      unfold checkCIDExists
      rw [if_neg hnv]
      dsimp only
      rw [hlk]
  · intro hdb
    have h1 : checkCIDExists st cid =
        (false, { st with dbQueries := st.dbQueries + 1 }) := by
      unfold checkCIDExists
      rw [if_neg hnv, hmiss]
      dsimp only
      rw [if_neg hdb]
    have h2 : checkCIDExists ({ st with
        dbQueries := st.dbQueries + 1 } : PinSt) cid =
          (false, ({ st with
            dbQueries := st.dbQueries + 1 + 1 } : PinSt)) := by
      unfold checkCIDExists
      rw [if_neg hnv]
      dsimp only
      rw [hmiss]
      dsimp only
      rw [if_neg hdb]
    rw [h1]
    dsimp only
    rw [h2]
    exact ⟨rfl, rfl, rfl⟩

/-- C3 witness: the amended theorem at concrete inputs — an identifier
present in the database (cached after one query) and the fresh empty
state for the absent side. -/
theorem C3_checkCIDExists_amended_witness :
    (isValidCID "QmT5NvUtoM5nWFfrQdVrFtvGfKFmG7AHE8P34isapyhCxX" = true ∧
      ("QmT5NvUtoM5nWFfrQdVrFtvGfKFmG7AHE8P34isapyhCxX" ∈
        ({ emptyPinSt with db := ["QmT5NvUtoM5nWFfrQdVrFtvGfKFmG7AHE8P34isapyhCxX"] } : PinSt).db)) ∧
    (checkCIDExists { emptyPinSt with db := ["QmT5NvUtoM5nWFfrQdVrFtvGfKFmG7AHE8P34isapyhCxX"] }
        "QmT5NvUtoM5nWFfrQdVrFtvGfKFmG7AHE8P34isapyhCxX").1 = true ∧
    (checkCIDExists (checkCIDExists
        { emptyPinSt with db := ["QmT5NvUtoM5nWFfrQdVrFtvGfKFmG7AHE8P34isapyhCxX"] }
        "QmT5NvUtoM5nWFfrQdVrFtvGfKFmG7AHE8P34isapyhCxX").2
        "QmT5NvUtoM5nWFfrQdVrFtvGfKFmG7AHE8P34isapyhCxX").2.dbQueries = 0 + 1 := by
  have h := (C3_checkCIDExists_amended
    { emptyPinSt with db := ["QmT5NvUtoM5nWFfrQdVrFtvGfKFmG7AHE8P34isapyhCxX"] }
    "QmT5NvUtoM5nWFfrQdVrFtvGfKFmG7AHE8P34isapyhCxX" (by decide) (by decide)).1
    (by decide)
  exact ⟨⟨by decide, by decide⟩, h.1, h.2.2⟩

/-! ### Claim C4 — local validation before pin calls -/

/-- Helper: a non-memoised CID always costs one gateway probe. -/
theorem checkPinHttp_probes_miss (w : PinWorld) (st : PinSt) (cid : String)
    (hmem : cid ∉ st.cidSet) :
    (checkPinHttp w st cid).2.gatewayProbes = st.gatewayProbes + 1 := by
  unfold checkPinHttp
  rw [if_neg hmem]
  split <;> (try split) <;> rfl

/-- C4 counterexample: `pinIPFS` performs no local validity check —
called with the invalid identifier `not-a-cid` it still issues the
gateway probe and the pin-creation request (two network calls) and
returns `true`, instead of rejecting locally with `false` and no network
request as the claim states. -/
theorem C4_counterexample :
    (pinIPFS ⟨some 404, some 200, some (some [])⟩ emptyPinSt
        "not-a-cid" "x" false false).1 = Except.ok true ∧
    (pinIPFS ⟨some 404, some 200, some (some [])⟩ emptyPinSt
        "not-a-cid" "x" false false).2.gatewayProbes = 1 ∧
    (pinIPFS ⟨some 404, some 200, some (some [])⟩ emptyPinSt
        "not-a-cid" "x" false false).2.pinApiCalls = 1 ∧
    isValidCID "not-a-cid" = false := by
  refine ⟨by decide, by decide, by decide, by decide⟩

/-- C4 amended: only `confirmPin` validates locally, and only against the
IPFS CID patterns — any string failing `isValidCID` (including valid
43-character Arweave identifiers) is rejected with `false` and no request
of any kind; `pinIPFS` validates nothing and issues its gateway probe for
every non-memoised identifier, valid or not. -/
theorem C4_validation_amended (w : PinWorld) (st : PinSt) (cid name : String)
    (im sk forcePin : Bool) :
    (isValidCID cid = false → confirmPin w st cid forcePin = (Except.ok false, st)) ∧
    (cid ∉ st.cidSet →
      (pinIPFS w st cid name im sk).2.gatewayProbes = st.gatewayProbes + 1) := by
  constructor
  · intro hinv
    unfold confirmPin
    rw [if_pos hinv]
  · intro hmem
    rcases hpair : checkPinHttp w st cid with ⟨live, st1⟩
    have hp : st1.gatewayProbes = st.gatewayProbes + 1 := by
      have h := checkPinHttp_probes_miss w st cid hmem
      rw [hpair] at h
      exact h
    unfold pinIPFS
    rw [hpair]
    dsimp only
    by_cases hs : statusOk live = true
    · rw [hs, if_pos rfl]
      rcases hex : checkCIDExists st1 cid with ⟨ex, st2⟩
      have h3 : st2.gatewayProbes = st1.gatewayProbes := by
        have h := checkCIDExists_gatewayProbes st1 cid
        rw [hex] at h
        exact h
      cases ex <;> cases sk <;>
        simp [writeCIDData_gatewayProbes, hp, h3]
    · simp only [Bool.not_eq_true] at hs
      simp only [hs, Bool.false_eq_true, if_false]
      cases w.postOutcome <;> cases sk <;>
        simp [writeCIDData_gatewayProbes, hp]

/-- C4 witness: a valid Arweave identifier (43 characters) is rejected by
`confirmPin` without touching the state, and `pinIPFS` on the fresh state
issues its gateway probe even for the invalid string `not-a-cid`. -/
theorem C4_validation_amended_witness :
    (isValidCID "T3STtttttttttttttttttttttttttttttttttttt-_w" = false ∧
      isValidArweaveCID "T3STtttttttttttttttttttttttttttttttttttt-_w" = true) ∧
    confirmPin ⟨some 404, some 200, some (some [])⟩ emptyPinSt
      "T3STtttttttttttttttttttttttttttttttttttt-_w" false =
        (Except.ok false, emptyPinSt) ∧
    (pinIPFS ⟨some 404, some 200, some (some [])⟩ emptyPinSt
      "not-a-cid" "x" false false).2.gatewayProbes = emptyPinSt.gatewayProbes + 1 :=
  ⟨⟨by decide, by decide⟩,
    (C4_validation_amended ⟨some 404, some 200, some (some [])⟩ emptyPinSt
      "T3STtttttttttttttttttttttttttttttttttttt-_w" "x" false false false).1 (by decide),
    (C4_validation_amended ⟨some 404, some 200, some (some [])⟩ emptyPinSt
      "not-a-cid" "x" false false false).2 (by decide)⟩

/-! ### Claim C8 — pin idempotence via the live-check -/

/-- C8 confirmed: whatever the first `pinIPFS` call did, if the content
is retrievable via the project gateway (2xx) at the time of the second
call for the same CID, the second call issues no pin-creation request
(the counter is unchanged), fires `confirmPin` to reconfirm the database
record, and returns `true`. -/
theorem C8_pin_idempotent (w1 w2 : PinWorld) (st : PinSt) (cid n1 n2 : String)
    (i1 i2 sk1 sk2 : Bool) (hlive : statusOk w2.gatewayStatus = true) :
    (pinIPFS w2 (pinIPFS w1 st cid n1 i1 sk1).2 cid n2 i2 sk2).2.pinApiCalls =
      (pinIPFS w1 st cid n1 i1 sk1).2.pinApiCalls ∧
    (pinIPFS w2 (pinIPFS w1 st cid n1 i1 sk1).2 cid n2 i2 sk2).2.confirmLaunched = true ∧
    (pinIPFS w2 (pinIPFS w1 st cid n1 i1 sk1).2 cid n2 i2 sk2).1 = Except.ok true :=
  pinIPFS_live w2 (pinIPFS w1 st cid n1 i1 sk1).2 cid n2 i2 sk2 hlive

/-- C8 witness: first call pins (gateway 404, POST accepted), the second
call sees the content live (gateway 200) and leaves the pin-creation
count at the single request of the first call. -/
theorem C8_pin_idempotent_witness :
    statusOk (PinWorld.gatewayStatus ⟨some 200, some 200, some (some [])⟩) = true ∧
    (pinIPFS ⟨some 200, some 200, some (some [])⟩
      (pinIPFS ⟨some 404, some 200, some (some [])⟩ emptyPinSt
        "QmT5NvUtoM5nWFfrQdVrFtvGfKFmG7AHE8P34isapyhCxX" "a" false false).2
      "QmT5NvUtoM5nWFfrQdVrFtvGfKFmG7AHE8P34isapyhCxX" "b" false false).2.pinApiCalls =
      (pinIPFS ⟨some 404, some 200, some (some [])⟩ emptyPinSt
        "QmT5NvUtoM5nWFfrQdVrFtvGfKFmG7AHE8P34isapyhCxX" "a" false false).2.pinApiCalls :=
  ⟨by decide,
    (C8_pin_idempotent ⟨some 404, some 200, some (some [])⟩
      ⟨some 200, some 200, some (some [])⟩ emptyPinSt
      "QmT5NvUtoM5nWFfrQdVrFtvGfKFmG7AHE8P34isapyhCxX" "a" "b"
      false false false false (by decide)).1⟩

/-! ### Claim C9 — CID cache preload (preloadCIDCacheFromDB)

The paginated `readItems('cidDB', …)` walk over a fixed database is
modelled by page-slicing a fixed list of rows; a row is `none` when its
`cid` field is null (falsy) and `some c` otherwise (`some ""` is the
other falsy case the source's `item.cid &&` guard filters). -/

/-- Embedding of the body of the `for (const item of data)` loop: a row
with a truthy `cid` not yet in the map is inserted and counted. -/
def preloadItem (acc : List (String × Bool) × Nat) (item : Option String) :
    List (String × Bool) × Nat :=
  match item with
  | some cid =>
    if cid ≠ "" ∧ acc.1.lookup cid = none then (acc.1 ++ [(cid, true)], acc.2 + 1)
    else acc
  | none => acc

/-- Embedding of the page loop: pages of `batch` rows are fetched until an
empty page, each merged into the map; returns the map and `totalLoaded`. -/
def preloadPages (batch : Nat) (db : List (Option String))
    (m : List (String × Bool)) : List (String × Bool) × Nat :=
  let page := db.take batch
  if h : page = [] then (m, 0)
  else
    let r1 := page.foldl preloadItem (m, 0)
    let r2 := preloadPages batch (db.drop batch) r1.1
    (r2.1, r1.2 + r2.2)
termination_by db.length
decreasing_by
  have hb : batch ≠ 0 := by
    intro hb0
    apply h
    show List.take batch db = []
    rw [hb0]
    exact List.take_zero db
  have hd : db ≠ [] := by
    intro hd0
    apply h
    show List.take batch db = []
    rw [hd0]
    exact List.take_nil
  have h1 : 0 < db.length := List.length_pos.mpr hd
  simp only [List.length_drop]
  omega

/-- Embedding of `preloadCIDCacheFromDB` (the subsequent best-effort file
snapshot `saveCIDCache` is not modelled). -/
def preloadCIDCacheFromDB (batch : Nat) (db : List (Option String))
    (m : List (String × Bool)) : List (String × Bool) × Nat :=
  preloadPages batch db m

/-- Reference run without pagination: the whole row list folded once. -/
def processAllRows (db : List (Option String)) (m : List (String × Bool)) :
    List (String × Bool) × Nat :=
  db.foldl preloadItem (m, 0)

theorem preloadItem_shift (i : Option String) (m : List (String × Bool)) (n : Nat) :
    preloadItem (m, n) i = ((preloadItem (m, 0) i).1, n + (preloadItem (m, 0) i).2) := by
  cases i with
  | none => simp [preloadItem]
  | some cid =>
    dsimp only [preloadItem]
    by_cases h : cid ≠ "" ∧ m.lookup cid = none
    · rw [if_pos h, if_pos h]
    · rw [if_neg h, if_neg h]
      rfl

theorem foldl_preloadItem_shift (db : List (Option String))
    (m : List (String × Bool)) (n : Nat) :
    db.foldl preloadItem (m, n) =
      ((db.foldl preloadItem (m, 0)).1, n + (db.foldl preloadItem (m, 0)).2) := by
  induction db generalizing m n with
  | nil => simp
  | cons i t ih =>
    simp only [List.foldl_cons]
    rw [preloadItem_shift i m n, preloadItem_shift i m 0]
    rcases h0 : preloadItem (m, 0) i with ⟨m1, d⟩
    dsimp only
    simp only [Nat.zero_add]
    rw [ih m1 (n + d), ih m1 d]
    dsimp only
    rw [Nat.add_assoc]

theorem processAllRows_append (a b : List (Option String)) (m : List (String × Bool)) :
    processAllRows (a ++ b) m =
      ((processAllRows b (processAllRows a m).1).1,
        (processAllRows a m).2 + (processAllRows b (processAllRows a m).1).2) := by
  unfold processAllRows
  rw [List.foldl_append]
  rcases h1 : a.foldl preloadItem (m, 0) with ⟨m1, n1⟩
  rw [foldl_preloadItem_shift b m1 n1]

theorem preloadPages_eq_processAll (batch : Nat) (hb : 0 < batch) :
    ∀ db m, preloadPages batch db m = processAllRows db m := by
  have key : ∀ n db m, db.length ≤ n →
      preloadPages batch db m = processAllRows db m := by
    intro n
    induction n with
    | zero =>
      intro db m hlen
      have hdb : db = [] := List.eq_nil_of_length_eq_zero (Nat.le_zero.mp hlen)
      subst hdb
      rw [preloadPages]
      simp [processAllRows]
    | succ k ih =>
      intro db m hlen
      by_cases hp : db.take batch = []
      · have hdb : db = [] := by
          rcases List.take_eq_nil_iff.mp hp with h | h
          · omega
          · exact h
        subst hdb
        rw [preloadPages]
        simp [processAllRows]
      · have hdlen : (db.drop batch).length ≤ k := by
          have hdb : db ≠ [] := by
            intro h0
            rw [h0] at hp
            exact hp (List.take_nil)
          have h1 : 0 < db.length := List.length_pos.mpr hdb
          simp only [List.length_drop]
          omega
        rw [preloadPages]
        rw [dif_neg hp]
        dsimp only
        rw [ih (db.drop batch) _ hdlen]
        have hsplit : db.take batch ++ db.drop batch = db := List.take_append_drop batch db
        conv_rhs => rw [← hsplit]
        rw [processAllRows_append]
        rfl
  intro db m
  exact key db.length db m (Nat.le_refl _)

/-- Helper: a present memo entry survives a preload fold. -/
theorem lookup_append_some {m : List (String × Bool)} {k : String} {v : Bool}
    (h : m.lookup k = some v) (l2 : List (String × Bool)) :
    (m ++ l2).lookup k = some v := by
  induction m with
  | nil => simp [List.lookup] at h
  | cons p ps ih =>
    rcases p with ⟨a, b⟩
    simp only [List.lookup, List.cons_append] at h ⊢
    by_cases hkk : k = a
    · simp only [show (k == a) = true from beq_iff_eq.mpr hkk] at h ⊢
      exact h
    · simp only [show (k == a) = false from beq_eq_false_iff_ne.mpr hkk] at h ⊢
      exact ih h

theorem foldl_preload_lookup_mono (db : List (Option String)) :
    ∀ (m : List (String × Bool)) (n : Nat) (cid : String) (v : Bool),
      m.lookup cid = some v →
      ((db.foldl preloadItem (m, n)).1).lookup cid = some v := by
  induction db with
  | nil => intro m n cid v h; exact h
  | cons i t ih =>
    intro m n cid v h
    simp only [List.foldl_cons]
    cases i with
    | none => exact ih m n cid v h
    | some c =>
      by_cases hc : c ≠ "" ∧ m.lookup c = none
      · simp only [preloadItem, if_pos hc]
        exact ih _ _ cid v (lookup_append_some h _)
      · simp only [preloadItem, if_neg hc]
        exact ih m n cid v h

theorem foldl_preload_covers (db : List (Option String)) :
    ∀ (m : List (String × Bool)) (n : Nat) (cid : String),
      some cid ∈ db → cid ≠ "" →
      ∃ v, ((db.foldl preloadItem (m, n)).1).lookup cid = some v := by
  induction db with
  | nil => intro m n cid h; exact absurd h (List.not_mem_nil _)
  | cons i t ih =>
    intro m n cid hmem hne
    simp only [List.foldl_cons]
    rcases List.mem_cons.mp hmem with heq | htail
    · subst heq
      cases hlk : m.lookup cid with
      | some v =>
        have hstep : ((preloadItem (m, n) (some cid)).1).lookup cid = some v := by
          by_cases hc : cid ≠ "" ∧ m.lookup cid = none
          · rw [hc.2] at hlk; cases hlk
          · simp only [preloadItem, if_neg hc]; exact hlk
        rcases hp : preloadItem (m, n) (some cid) with ⟨m1, n1⟩
        rw [hp] at hstep
        exact ⟨v, foldl_preload_lookup_mono t m1 n1 cid v hstep⟩
      | none =>
        have hc : cid ≠ "" ∧ m.lookup cid = none := ⟨hne, hlk⟩
        simp only [preloadItem, if_pos hc]
        refine ⟨true, foldl_preload_lookup_mono t _ _ cid true ?_⟩
        exact lookup_append_none hlk [(cid, true)] ▸ by simp [List.lookup]
    · cases i with
      | none => exact ih m n cid htail hne
      | some c =>
        rcases hp : preloadItem (m, n) (some c) with ⟨m1, n1⟩
        exact ih m1 n1 cid htail hne

theorem foldl_preload_noop (db : List (Option String)) :
    ∀ (m : List (String × Bool)) (n : Nat),
      (∀ cid, some cid ∈ db → cid ≠ "" → (m.lookup cid).isSome) →
      db.foldl preloadItem (m, n) = (m, n) := by
  induction db with
  | nil => intro m n _; rfl
  | cons i t ih =>
    intro m n hcov
    simp only [List.foldl_cons]
    have hstep : preloadItem (m, n) i = (m, n) := by
      cases i with
      | none => rfl
      | some c =>
        by_cases hc : c = ""
        · simp [preloadItem, hc]
        · have hs := hcov c (List.mem_cons_self _ _) hc
          have hcond : ¬(c ≠ "" ∧ m.lookup c = none) := by
            intro hand
            rw [hand.2] at hs
            simp at hs
          dsimp only [preloadItem]
          rw [if_neg hcond]
    rw [hstep]
    exact ih m n (fun cid hm hne => hcov cid (List.mem_cons_of_mem i hm) hne)

theorem lookup_none_not_key {m : List (String × Bool)} {k : String}
    (h : m.lookup k = none) : k ∉ m.map Prod.fst := by
  induction m with
  | nil => simp
  | cons p ps ih =>
    rcases p with ⟨a, b⟩
    simp only [List.lookup] at h
    by_cases hkk : k = a
    · simp only [show (k == a) = true from beq_iff_eq.mpr hkk] at h
      cases h
    · simp only [show (k == a) = false from beq_eq_false_iff_ne.mpr hkk] at h
      simp only [List.map_cons, List.mem_cons]
      rintro (rfl | hmem)
      · exact hkk rfl
      · exact ih h hmem

theorem foldl_preload_keys_nodup (db : List (Option String)) :
    ∀ (m : List (String × Bool)) (n : Nat),
      ((m.map Prod.fst).Nodup) →
      (((db.foldl preloadItem (m, n)).1).map Prod.fst).Nodup := by
  induction db with
  | nil => intro m n h; exact h
  | cons i t ih =>
    intro m n hnd
    simp only [List.foldl_cons]
    cases i with
    | none => exact ih m n hnd
    | some c =>
      by_cases hc : c ≠ "" ∧ m.lookup c = none
      · simp only [preloadItem, if_pos hc]
        refine ih _ _ ?_
        rw [List.map_append]
        simp only [List.map_cons, List.map_nil]
        rw [List.nodup_append]
        refine ⟨hnd, List.nodup_singleton c, ?_⟩
        intro a ha hb
        simp only [List.mem_singleton] at hb
        subst hb
        exact lookup_none_not_key hc.2 ha
      · simp only [preloadItem, if_neg hc]
        exact ih m n hnd

theorem preloadPages_zero (db : List (Option String)) (m : List (String × Bool)) :
    preloadPages 0 db m = (m, 0) := by
  rw [preloadPages]
  simp

/-- C9 confirmed: for any fixed database contents, page size and starting
map, running the preload a second time returns the map of the first run
unchanged with a loaded-count of 0 (so the map size is unchanged), and a
preload into a fresh map never duplicates a key. -/
theorem C9_preload_idempotent (batch : Nat) (db : List (Option String))
    (m : List (String × Bool)) :
    preloadCIDCacheFromDB batch db (preloadCIDCacheFromDB batch db m).1 =
      ((preloadCIDCacheFromDB batch db m).1, 0) ∧
    (((preloadCIDCacheFromDB batch db []).1).map Prod.fst).Nodup := by
  unfold preloadCIDCacheFromDB
  by_cases hb : 0 < batch
  · rw [preloadPages_eq_processAll batch hb, preloadPages_eq_processAll batch hb,
      preloadPages_eq_processAll batch hb]
    constructor
    · unfold processAllRows
      apply foldl_preload_noop
      intro cid hmem hne
      rcases foldl_preload_covers db m 0 cid hmem hne with ⟨v, hv⟩
      rw [hv]
      rfl
    · exact foldl_preload_keys_nodup db [] 0 (by simp)
  · have hb0 : batch = 0 := by omega
    subst hb0
    rw [preloadPages_zero, preloadPages_zero, preloadPages_zero]
    exact ⟨rfl, by simp⟩

/-! ### Claim C10 — categorised error accounting (ProcessingContext)

Entries mirror the record built by `recordCategorizedError`; unknown
categories land in the `other` bucket with the category attached (the
`{ ...errorEntry, category }` spread).  The JS guard
`if (this.errors[category])` is a truthy property lookup on a plain
object: it finds the own array for the seven known names, it finds an
inherited truthy `Object.prototype` member for the prototype member
names (and the following `.push(errorEntry)` then throws a `TypeError`,
since that member is not an array), and it yields `undefined` (falsy)
for every other name.  The thrown path is modelled as `Except.error`. -/

structure ErrorEntry where
  timestamp : Nat
  tokenId : Option String
  serial : Option Nat
  cid : Option String
  gateway : Option String
  message : String
  stack : Option String
  retryCount : Nat

structure CategorizedErrors where
  fetchMetadata : List ErrorEntry
  pinMetadata : List ErrorEntry
  pinImage : List ErrorEntry
  databaseWrite : List ErrorEntry
  gatewayTimeout : List ErrorEntry
  invalidCID : List ErrorEntry
  other : List (ErrorEntry × Option String)

/-- Fresh error collection of a new `ProcessingContext`. -/
def emptyCategorizedErrors : CategorizedErrors :=
  { fetchMetadata := [], pinMetadata := [], pinImage := [], databaseWrite := [],
    gatewayTimeout := [], invalidCID := [], other := [] }

/-- The seven known category names (the own fields of `this.errors`). -/
def knownErrorCategories : List String :=
  ["fetchMetadata", "pinMetadata", "pinImage", "databaseWrite",
   "gatewayTimeout", "invalidCID", "other"]

/-- The member names `this.errors[category]` finds on `Object.prototype`:
all of them are truthy (functions, or the prototype object itself for the
`__proto__` accessor), so the guard passes and the `.push` call throws. -/
def objectProtoProps : List String :=
  ["constructor", "hasOwnProperty", "isPrototypeOf", "propertyIsEnumerable",
   "toLocaleString", "toString", "valueOf", "__defineGetter__",
   "__defineSetter__", "__lookupGetter__", "__lookupSetter__", "__proto__"]

/-- Embedding of `ProcessingContext.recordCategorizedError` (the error
bucket part; the legacy `errorSerials` push and the winston log line do
not touch the buckets).  The truthy lookup resolves to the own field for
the seven known names, to an inherited non-array `Object.prototype`
member for the prototype names — where `.push` throws a `TypeError` —
and to `undefined` otherwise, which routes to the `other` bucket. -/
def recordCategorizedError (errs : CategorizedErrors) (category : String)
    (e : ErrorEntry) : Except String CategorizedErrors :=
  if category = "fetchMetadata" then
    Except.ok { errs with fetchMetadata := errs.fetchMetadata ++ [e] }
  else if category = "pinMetadata" then
    Except.ok { errs with pinMetadata := errs.pinMetadata ++ [e] }
  else if category = "pinImage" then
    Except.ok { errs with pinImage := errs.pinImage ++ [e] }
  else if category = "databaseWrite" then
    Except.ok { errs with databaseWrite := errs.databaseWrite ++ [e] }
  else if category = "gatewayTimeout" then
    Except.ok { errs with gatewayTimeout := errs.gatewayTimeout ++ [e] }
  else if category = "invalidCID" then
    Except.ok { errs with invalidCID := errs.invalidCID ++ [e] }
  else if category = "other" then
    Except.ok { errs with other := errs.other ++ [(e, none)] }
  else if category ∈ objectProtoProps then
    Except.error "TypeError: this.errors[category].push is not a function"
  else
    Except.ok { errs with other := errs.other ++ [(e, some category)] }

/-- Embedding of `getTotalErrorCount`: the summed bucket lengths. -/
def getTotalErrorCount (errs : CategorizedErrors) : Nat :=
  errs.fetchMetadata.length + errs.pinMetadata.length + errs.pinImage.length +
  errs.databaseWrite.length + errs.gatewayTimeout.length +
  errs.invalidCID.length + errs.other.length

/-- A sequence of `recordCategorizedError` calls; a thrown `TypeError`
propagates to the caller, abandoning the remaining calls. -/
def recordAll : List (String × ErrorEntry) → CategorizedErrors →
    Except String CategorizedErrors
  | [], errs => Except.ok errs
  | p :: t, errs =>
    match recordCategorizedError errs p.1 p.2 with
    | Except.ok errs2 => recordAll t errs2
    | Except.error msg => Except.error msg

theorem recordCategorizedError_total (errs : CategorizedErrors)
    (category : String) (e : ErrorEntry)
    (h : category ∉ objectProtoProps) :
    ∃ errs2, recordCategorizedError errs category e = Except.ok errs2 ∧
      getTotalErrorCount errs2 = getTotalErrorCount errs + 1 := by
  unfold recordCategorizedError
  split_ifs with h1 h2 h3 h4 h5 h6 h7
  all_goals exact ⟨_, rfl, by simp [getTotalErrorCount]; try omega⟩

theorem recordCategorizedError_unknown (errs : CategorizedErrors)
    (category : String) (e : ErrorEntry)
    (h : category ∉ knownErrorCategories) (hp : category ∉ objectProtoProps) :
    recordCategorizedError errs category e =
      Except.ok { errs with other := errs.other ++ [(e, some category)] } := by
  unfold recordCategorizedError
  rw [if_neg (fun hc => h (by rw [hc]; decide)),
    if_neg (fun hc => h (by rw [hc]; decide)),
    if_neg (fun hc => h (by rw [hc]; decide)),
    if_neg (fun hc => h (by rw [hc]; decide)),
    if_neg (fun hc => h (by rw [hc]; decide)),
    if_neg (fun hc => h (by rw [hc]; decide)),
    if_neg (fun hc => h (by rw [hc]; decide)),
    if_neg hp]

theorem recordCategorizedError_proto (errs : CategorizedErrors)
    (category : String) (e : ErrorEntry)
    (h : category ∈ objectProtoProps) :
    recordCategorizedError errs category e =
      Except.error "TypeError: this.errors[category].push is not a function" := by
  unfold recordCategorizedError
  rw [if_neg (fun hc => absurd (hc ▸ h) (by decide)),
    if_neg (fun hc => absurd (hc ▸ h) (by decide)),
    if_neg (fun hc => absurd (hc ▸ h) (by decide)),
    if_neg (fun hc => absurd (hc ▸ h) (by decide)),
    if_neg (fun hc => absurd (hc ▸ h) (by decide)),
    if_neg (fun hc => absurd (hc ▸ h) (by decide)),
    if_neg (fun hc => absurd (hc ▸ h) (by decide)),
    if_pos h]

theorem recordAll_total (calls : List (String × ErrorEntry)) :
    ∀ errs : CategorizedErrors, (∀ p ∈ calls, p.1 ∉ objectProtoProps) →
      ∃ errs2, recordAll calls errs = Except.ok errs2 ∧
        getTotalErrorCount errs2 = getTotalErrorCount errs + calls.length := by
  induction calls with
  | nil => intro errs _; exact ⟨errs, rfl, rfl⟩
  | cons p t ih =>
    intro errs h
    rcases recordCategorizedError_total errs p.1 p.2
      (h p (List.mem_cons_self p t)) with ⟨e1, he1, ht1⟩
    rcases ih e1 (fun q hq => h q (List.mem_cons_of_mem p hq)) with ⟨e2, he2, ht2⟩
    refine ⟨e2, ?_, ?_⟩
    · unfold recordAll
      rw [he1]
      exact he2
    · rw [ht2, ht1]
      simp only [List.length_cons]
      omega

/-- C10 counterexample: the category name `toString` is outside the seven
known categories, yet the source's truthy lookup finds the inherited
`Object.prototype.toString` member and the subsequent `.push` throws a
`TypeError` — the entry is neither stored in the `other` bucket nor
counted, contradicting the claim's "rather than dropping it or throwing"
and its n-calls-count-n conclusion. -/
theorem C10_counterexample :
    ("toString" ∉ knownErrorCategories) ∧
    recordCategorizedError emptyCategorizedErrors "toString"
        ⟨0, none, none, none, none, "boom", none, 0⟩ =
      Except.error "TypeError: this.errors[category].push is not a function" :=
  ⟨by decide, rfl⟩

/-- C10 amended: for every category name that is not an inherited
`Object.prototype` member name, a `recordCategorizedError` call appends
exactly one entry to exactly one bucket — names outside the seven known
categories land in the `other` bucket with the category attached — so n
such calls on a fresh context give a total error count of exactly n; a
category naming an `Object.prototype` member (e.g. `toString`,
`constructor`, `__proto__`) instead makes the call throw a `TypeError`. -/
theorem C10_error_accounting_amended :
    (∀ (errs : CategorizedErrors) (category : String) (e : ErrorEntry),
      category ∉ objectProtoProps →
      ∃ errs2, recordCategorizedError errs category e = Except.ok errs2 ∧
        getTotalErrorCount errs2 = getTotalErrorCount errs + 1) ∧
    (∀ (errs : CategorizedErrors) (category : String) (e : ErrorEntry),
      category ∉ knownErrorCategories → category ∉ objectProtoProps →
      recordCategorizedError errs category e =
        Except.ok { errs with other := errs.other ++ [(e, some category)] }) ∧
    (∀ (errs : CategorizedErrors) (category : String) (e : ErrorEntry),
      category ∈ objectProtoProps →
      recordCategorizedError errs category e =
        Except.error "TypeError: this.errors[category].push is not a function") ∧
    (∀ calls : List (String × ErrorEntry),
      (∀ p ∈ calls, p.1 ∉ objectProtoProps) →
      ∃ errs2, recordAll calls emptyCategorizedErrors = Except.ok errs2 ∧
        getTotalErrorCount errs2 = calls.length) :=
  ⟨recordCategorizedError_total, recordCategorizedError_unknown,
   recordCategorizedError_proto,
   fun calls h => by
    rcases recordAll_total calls emptyCategorizedErrors h with ⟨e2, he2, ht2⟩
    refine ⟨e2, he2, ?_⟩
    rw [ht2]
    simp [getTotalErrorCount, emptyCategorizedErrors]⟩

/-- C10 witness: `imageResize` (neither a known category nor a prototype
member name) lands in the `other` bucket with the category attached, and
`toString` (a prototype member name) throws. -/
theorem C10_error_accounting_amended_witness :
    ("imageResize" ∉ knownErrorCategories ∧ "imageResize" ∉ objectProtoProps ∧
      "toString" ∈ objectProtoProps) ∧
    recordCategorizedError emptyCategorizedErrors "imageResize"
        ⟨0, none, none, none, none, "boom", none, 0⟩ =
      Except.ok { emptyCategorizedErrors with
        other := emptyCategorizedErrors.other ++
          [(⟨0, none, none, none, none, "boom", none, 0⟩, some "imageResize")] } ∧
    recordCategorizedError emptyCategorizedErrors "toString"
        ⟨0, none, none, none, none, "boom", none, 0⟩ =
      Except.error "TypeError: this.errors[category].push is not a function" :=
  ⟨⟨by decide, by decide, by decide⟩,
   C10_error_accounting_amended.2.1 emptyCategorizedErrors "imageResize"
     ⟨0, none, none, none, none, "boom", none, 0⟩ (by decide) (by decide),
   C10_error_accounting_amended.2.2.1 emptyCategorizedErrors "toString"
     ⟨0, none, none, none, none, "boom", none, 0⟩ (by decide)⟩

/-! ### Claim C6 — gateway selector scoring (GatewayManager)

Scores are exact rationals in place of IEEE doubles (`0.6` and `0.4` as
`6/10` and `4/10`); none of the settled facts depends on rounding.  The
JS test `gateway.lastFailure && (now - gateway.lastFailure) < 60000` is
embedded including the numeric truthiness of the stored timestamp
(`some 0` is falsy); `now - t` is ℕ-subtraction, which coincides with the
JS comparison also for `t > now` (both sides then apply the penalty). -/

structure GatewayStat where
  url : String
  successCount : Nat
  failCount : Nat
  totalResponseTime : Nat
  avgResponseTime : ℚ
  lastSuccess : Option Nat
  lastFailure : Option Nat

/-- One entry of the constructor's `gateways.map(url => ({...}))`. -/
def initGateway (url : String) : GatewayStat :=
  { url := url, successCount := 0, failCount := 0, totalResponseTime := 0,
    avgResponseTime := 0, lastSuccess := none, lastFailure := none }

/-- Embedding of `recordSuccess` on the stat entry found for the URL. -/
def recordSuccess (g : GatewayStat) (responseTime now : Nat) : GatewayStat :=
  { g with
    successCount := g.successCount + 1,
    totalResponseTime := g.totalResponseTime + responseTime,
    avgResponseTime :=
      ((g.totalResponseTime + responseTime : Nat) : ℚ) / ((g.successCount + 1 : Nat) : ℚ),
    lastSuccess := some now }

/-- Embedding of `recordFailure` on the stat entry found for the URL. -/
def recordFailure (g : GatewayStat) (now : Nat) : GatewayStat :=
  { g with failCount := g.failCount + 1, lastFailure := some now }

/-- Embedding of the per-gateway score computed inside `getBestGateway`. -/
def codeScore (now : Nat) (g : GatewayStat) : ℚ :=
  let totalAttempts := g.successCount + g.failCount
  let successRate : ℚ :=
    if totalAttempts > 0 then (g.successCount : ℚ) / (totalAttempts : ℚ) else 1 / 2
  let timePenalty : ℚ :=
    match g.lastFailure with
    | some t => if t ≠ 0 ∧ now - t < 60000 then 1 / 2 else 1
    | none => 1
  let responseScore : ℚ :=
    if g.avgResponseTime > 0 then max 0 (1 - g.avgResponseTime / 10000) else 1 / 2
  (successRate * (6 / 10) + responseScore * (4 / 10)) * timePenalty

/-- Score formula as the claim words it: `responseScore` falls back to
`1/2` only when no success has been recorded. -/
def claimScoreOriginal (now : Nat) (g : GatewayStat) : ℚ :=
  let totalAttempts := g.successCount + g.failCount
  let successRate : ℚ :=
    if totalAttempts > 0 then (g.successCount : ℚ) / (totalAttempts : ℚ) else 1 / 2
  let timePenalty : ℚ :=
    match g.lastFailure with
    | some t => if now - t < 60000 then 1 / 2 else 1
    | none => 1
  let responseScore : ℚ :=
    if g.successCount > 0 then max 0 (1 - g.avgResponseTime / 10000) else 1 / 2
  (successRate * (6 / 10) + responseScore * (4 / 10)) * timePenalty

/-- Score formula as amended: `responseScore` falls back to `1/2`
whenever the recorded average response time is not positive. -/
def claimScoreAmended (now : Nat) (g : GatewayStat) : ℚ :=
  let totalAttempts := g.successCount + g.failCount
  let successRate : ℚ :=
    if totalAttempts > 0 then (g.successCount : ℚ) / (totalAttempts : ℚ) else 1 / 2
  let timePenalty : ℚ :=
    match g.lastFailure with
    | some t => if now - t < 60000 then 1 / 2 else 1
    | none => 1
  let responseScore : ℚ :=
    if g.avgResponseTime > 0 then max 0 (1 - g.avgResponseTime / 10000) else 1 / 2
  (successRate * (6 / 10) + responseScore * (4 / 10)) * timePenalty

/-- Real-world side condition for the timestamp-truthiness quirk: any
recorded failure time is positive (`Date.now()` is never 0). -/
def lastFailurePos (g : GatewayStat) : Bool :=
  match g.lastFailure with
  | some t => decide (0 < t)
  | none => true

/-- Stable insertion step of the descending sort performed by
`scored.sort((a, b) => b.score - a.score)` (ES2019 sorts are stable, so
an element is placed after every earlier element of equal score). -/
def insertScored (x : GatewayStat × ℚ) : List (GatewayStat × ℚ) → List (GatewayStat × ℚ)
  | [] => [x]
  | y :: ys => if y.2 ≥ x.2 then y :: insertScored x ys else x :: y :: ys

def sortScoredDesc (l : List (GatewayStat × ℚ)) : List (GatewayStat × ℚ) :=
  l.foldl (fun acc x => insertScored x acc) []

/-- Embedding of `getBestGateway`: score, sort descending (stable), take
the first URL (`none` for an empty pool, where the JS would crash). -/
def getBestGateway (now : Nat) (gws : List GatewayStat) : Option String :=
  ((sortScoredDesc (gws.map (fun g => (g, codeScore now g)))).head?).map
    (fun p => p.1.url)

/-- Spec wording of the selection: the first element attaining the
maximal score, ties broken by original configuration order. -/
def bestFirst (x : GatewayStat × ℚ) : List (GatewayStat × ℚ) → GatewayStat × ℚ
  | [] => x
  | y :: t => bestFirst (if y.2 > x.2 then y else x) t

/-- Spec-side selector over the amended score. -/
def specBestGateway (now : Nat) : List GatewayStat → Option String
  | [] => none
  | g :: t =>
    some ((bestFirst (g, claimScoreAmended now g)
      (t.map (fun x => (x, claimScoreAmended now x)))).1.url)

/-- C6 counterexample: after a single recorded success with a 0 ms
response time, the code scores the gateway `4/5` (its `avgResponseTime`
is 0, so the code falls back to the `0.5` response score), while the
formula of the claim — `responseScore = max(0, 1 - avg/10000)` as soon as
one success is recorded — yields `1`. -/
theorem C6_counterexample :
    codeScore 100000 (recordSuccess (initGateway "g") 0 99999) = 4 / 5 ∧
    claimScoreOriginal 100000 (recordSuccess (initGateway "g") 0 99999) = 1 := by
  constructor <;>
    norm_num [codeScore, claimScoreOriginal, recordSuccess, initGateway]

theorem insertScored_head (x : GatewayStat × ℚ) (y : GatewayStat × ℚ)
    (ys : List (GatewayStat × ℚ)) :
    (insertScored x (y :: ys)).head? = some (if x.2 > y.2 then x else y) := by
  unfold insertScored
  by_cases h : y.2 ≥ x.2
  · rw [if_pos h, if_neg (by exact not_lt.mpr h)]
    rfl
  · rw [if_neg h, if_pos (lt_of_not_ge h)]
    rfl

theorem foldl_insert_head (l : List (GatewayStat × ℚ)) :
    ∀ (acc : List (GatewayStat × ℚ)) (h : GatewayStat × ℚ),
      acc.head? = some h →
      ((l.foldl (fun a x => insertScored x a) acc).head?) = some (bestFirst h l) := by
  induction l with
  | nil => intro acc h hh; exact hh
  | cons y t ih =>
    intro acc h hh
    simp only [List.foldl_cons]
    rcases acc with _ | ⟨a, as⟩
    · cases hh
    · have ha : a = h := by
        simp only [List.head?] at hh
        injection hh
      subst ha
      rw [bestFirst]
      exact ih (insertScored y (a :: as)) _ (insertScored_head y a as)

/-- C6 amended: under positive failure timestamps the score the code
computes is exactly the claimed blend with the amended response-score
condition, and `getBestGateway` returns the first gateway of maximal
score in configuration order (and `none` exactly on the empty pool the
spec rules out). -/
theorem C6_getBestGateway_amended (now : Nat) :
    (∀ g : GatewayStat, lastFailurePos g = true →
      codeScore now g = claimScoreAmended now g) ∧
    (∀ gws : List GatewayStat, (∀ g ∈ gws, lastFailurePos g = true) →
      getBestGateway now gws = specBestGateway now gws) ∧
    (∀ (x : GatewayStat × ℚ) (l : List (GatewayStat × ℚ)),
      ∀ p ∈ x :: l, p.2 ≤ (bestFirst x l).2) := by
  have hscore : ∀ g : GatewayStat, lastFailurePos g = true →
      codeScore now g = claimScoreAmended now g := by
    intro g hg
    unfold codeScore claimScoreAmended
    cases hf : g.lastFailure with
    | none => rfl
    | some t =>
      unfold lastFailurePos at hg
      rw [hf] at hg
      have ht : t ≠ 0 := by
        intro h0
        rw [h0] at hg
        simp at hg
      dsimp only
      by_cases hlt : now - t < 60000
      · rw [if_pos ((⟨ht, hlt⟩ : t ≠ 0 ∧ now - t < 60000)),
          if_pos hlt]
      · rw [if_neg (fun hand : t ≠ 0 ∧ now - t < 60000 => hlt hand.2),
          if_neg hlt]
  refine ⟨hscore, ?_, ?_⟩
  · intro gws hpos
    cases gws with
    | nil => rfl
    | cons g t =>
      unfold getBestGateway specBestGateway sortScoredDesc
      simp only [List.map_cons, List.foldl_cons]
      have hmap : t.map (fun x => (x, codeScore now x)) =
          t.map (fun x => (x, claimScoreAmended now x)) := by
        apply List.map_congr_left
        intro x hx
        rw [hscore x (hpos x (List.mem_cons_of_mem g hx))]
      have hhead := foldl_insert_head (t.map (fun x => (x, codeScore now x)))
        (insertScored (g, codeScore now g) []) (g, codeScore now g) rfl
      rw [hhead, hscore g (hpos g (List.mem_cons_self g t)), hmap]
      rfl
  · intro x l
    induction l generalizing x with
    | nil =>
      intro p hp
      rcases List.mem_singleton.mp hp with rfl
      exact le_refl _
    | cons y t ih =>
      intro p hp
      rw [bestFirst]
      rcases List.mem_cons.mp hp with rfl | hp2
      · refine le_trans ?_ (ih _ _ (List.mem_cons_self _ _))
        by_cases hgt : y.2 > p.2
        · rw [if_pos hgt]; exact le_of_lt hgt
        · rw [if_neg hgt]
      · rcases List.mem_cons.mp hp2 with rfl | hp3
        · refine le_trans ?_ (ih _ _ (List.mem_cons_self _ _))
          by_cases hgt : p.2 > x.2
          · rw [if_pos hgt]
          · rw [if_neg hgt]; exact le_of_not_lt hgt
        · exact ih _ _ (List.mem_cons_of_mem _ hp3)

/-- C6 witness: a two-gateway pool — nine fast successes and one stale
failure against a fresh gateway — where the amended theorem applies and
the first gateway wins. -/
theorem C6_getBestGateway_amended_witness :
    (∀ g ∈ [recordFailure (recordSuccess (initGateway "A") 100 2000) 1000,
            initGateway "B"], lastFailurePos g = true) ∧
    getBestGateway 100000
        [recordFailure (recordSuccess (initGateway "A") 100 2000) 1000,
         initGateway "B"] =
      specBestGateway 100000
        [recordFailure (recordSuccess (initGateway "A") 100 2000) 1000,
         initGateway "B"] :=
  ⟨by decide,
    (C6_getBestGateway_amended 100000).2.1
      [recordFailure (recordSuccess (initGateway "A") 100 2000) 1000,
       initGateway "B"] (by decide)⟩

/-! ### Content reference resolver (extractCIDFromUrl, metadataScrapeHelper)

The JS function applies, in order: the `ar://` protocol test (on the
lowercased URL), the known-Arweave-gateway regex, the `ipfs://` protocol
test, an unanchored `/ipfs/<segment>` search, the anchored subdomain
regex, an `hcs://` containment test, and finally the bare-CID patterns.
Case-insensitive regex literals are embedded by lowering the inspected
characters one by one (`startsWithCI`), while every returned identifier
is cut from the original string, as `match` captures are. -/

def arPat : List Char := ['a', 'r', ':', '/', '/']

def ipfsPat : List Char := ['i', 'p', 'f', 's', ':', '/', '/']

def slashIpfsPat : List Char := ['/', 'i', 'p', 'f', 's', '/']

def hcsPat : List Char := ['h', 'c', 's', ':', '/', '/']

def httpsPat : List Char := ['h', 't', 't', 'p', 's', ':', '/', '/']

def httpPat : List Char := ['h', 't', 't', 'p', ':', '/', '/']

def dotIpfsPat : List Char := ['.', 'i', 'p', 'f', 's', '.']

/-- Embedding of `url.slice(k).split('/')[0]`: the segment up to the next
slash. -/
def takeUntilSlash (l : List Char) : List Char :=
  l.takeWhile (fun c => c != '/')

/-- Embedding of `url.split('/')[parts.length - 1]`: the segment after
the last slash (the whole string when there is none). -/
def lastSegment (l : List Char) : List Char :=
  (l.reverse.takeWhile (fun c => c != '/')).reverse

/-- Character class `[^/?#]` of the gateway-path capture. -/
def ipfsSegChar (c : Char) : Bool :=
  c != '/' && c != '?' && c != '#'

/-- Leftmost-match search for `/\/ipfs\/([^\/?#]+)/i`: at each start
position the literal is compared case-insensitively and the capture must
be non-empty, else the engine advances one character. -/
def ipfsPathSearch : List Char → Option (List Char)
  | [] => none
  | c :: cs =>
    if startsWithCI slashIpfsPat (c :: cs) then
      let seg := ((c :: cs).drop 6).takeWhile ipfsSegChar
      if seg.isEmpty then ipfsPathSearch cs else some seg
    else ipfsPathSearch cs

/-- Containment test for `lowerUrl.includes('hcs://')`. -/
def containsHcsCI : List Char → Bool
  | [] => false
  | c :: cs => startsWithCI hcsPat (c :: cs) || containsHcsCI cs

/-- The `^https?:\/\/` part shared by the anchored regexes: returns the
remainder after the scheme. -/
def schemeSplit (l : List Char) : Option (List Char) :=
  if startsWithCI httpsPat l then some (l.drop 8)
  else if startsWithCI httpPat l then some (l.drop 7)
  else none

/-- The four alternation branches of the Arweave gateway regex, each with
the following literal `/`. -/
def arweaveDomains : List (List Char) :=
  [ "arweave.net/".toList, "ar-io.dev/".toList, "permagate.io/".toList,
    "arweave.developerdao.com/".toList]

/-- Embedding of the match against
`^https?:\/\/(?:arweave\.net|ar-io\.dev|permagate\.io|arweave\.developerdao\.com)\/(.+)/i`
followed by `match[1].split('/')[0]`: the greedy `(.+)` takes the maximal
newline-free run (and must be non-empty), of which the part before the
first slash is returned. -/
def arweaveGatewayMatch (l : List Char) : Option (List Char) :=
  match schemeSplit l with
  | none => none
  | some rest =>
    match arweaveDomains.find? (fun d => startsWithCI d rest) with
    | none => none
    | some d =>
      let after := rest.drop d.length
      match after with
      | [] => none
      | c :: _ =>
        if c == '\n' then none
        else some ((after.takeWhile (fun x => x != '\n')).takeWhile (fun x => x != '/'))

/-- Embedding of `^https?:\/\/([^.]+)\.ipfs\.[^\/]+/i`: the capture is
the dot-free run after the scheme (non-empty, and necessarily maximal
since `[^.]` cannot match the following dot), then the literal `.ipfs.`
and at least one non-slash character. -/
def subdomainMatch (l : List Char) : Option (List Char) :=
  match schemeSplit l with
  | none => none
  | some rest =>
    let sub := rest.takeWhile (fun c => c != '.')
    if sub.isEmpty then none
    else if startsWithCI dotIpfsPat (rest.drop sub.length) then
      match (rest.drop sub.length).drop 6 with
      | [] => none
      | c :: _ => if c == '/' then none else some sub
    else none

/-- Case-insensitive bare CIDv1 test `/^b[a-z2-7]{58}$/i` of the
resolver (unlike `isValidCID`, this one uses the true base32 alphabet). -/
def cidV1TestCI : List Char → Bool
  | c :: rest =>
    c.toLower == 'b' && rest.length == 58 && rest.all (fun x => isBase32Char x.toLower)
  | [] => false

/-- Embedding of `extractCIDFromUrl` on the character list of the URL. -/
def extractCore (l : List Char) : Option (List Char) :=
  if l.isEmpty then none
  else if startsWithCI arPat l then some (takeUntilSlash (l.drop 5))
  else
    match arweaveGatewayMatch l with
    | some r => some r
    | none =>
      if startsWithCI ipfsPat l then some (takeUntilSlash (l.drop 7))
      else
        match ipfsPathSearch l with
        | some r => some r
        | none =>
          match subdomainMatch l with
          | some r => some r
          | none =>
            if containsHcsCI l then some (lastSegment l)
            else
              let seg := takeUntilSlash l
              if matchQmV0 seg || cidV1TestCI seg then some seg else none

/-- Embedding of `extractCIDFromUrl`: `none` models both a `null` or
`undefined` argument and a `null` result; the empty string is also
rejected by the falsiness guard. -/
def extractCIDFromUrl (u : Option String) : Option String :=
  match u with
  | none => none
  | some s => (extractCore s.toList).map (fun r => String.mk r)

/-! Character plumbing for the case-insensitive scanners. -/

theorem toNat_ofNat_valid (n : Nat) (h : n < 55296) : (Char.ofNat n).toNat = n := by
  unfold Char.ofNat
  rw [dif_pos (by left; omega : n.isValidChar)]
  unfold Char.ofNatAux Char.toNat
  simp [UInt32.toNat, BitVec.toNat_ofNatLt]

theorem toLower_toNat (c : Char) :
    (Char.toLower c).toNat =
      if c.toNat ≥ 65 ∧ c.toNat ≤ 90 then c.toNat + 32 else c.toNat := by
  unfold Char.toLower
  dsimp only
  by_cases hc : c.toNat ≥ 65 ∧ c.toNat ≤ 90
  · rw [if_pos hc, if_pos hc]
    exact toNat_ofNat_valid _ (by omega)
  · rw [if_neg hc, if_neg hc]

/-- Lowercasing can only produce a character below code point 97 by
leaving it unchanged. -/
theorem toLower_eq_target (x d : Char) (hlow : d.toNat < 97)
    (h : Char.toLower x = d) : x = d := by
  have hl := toLower_toNat x
  have hn := congrArg Char.toNat h
  by_cases hcase : x.toNat ≥ 65 ∧ x.toNat ≤ 90
  · rw [if_pos hcase] at hl
    omega
  · have hx : Char.toLower x = x := by
      unfold Char.toLower
      rw [if_neg hcase]
    rw [hx] at h
    exact h

/-- Membership in a character class that excludes a low code point rules
the lowered character out of being that code point. -/
theorem toLower_ne_of_class (P : Char → Bool) (x d : Char) (hx : P x = true)
    (hd : P d = false) (hlow : d.toNat < 97) : Char.toLower x ≠ d := by
  intro he
  rw [toLower_eq_target x d hlow he] at hx
  rw [hx] at hd
  cases hd

theorem ne_of_class (P : Char → Bool) (x d : Char) (hx : P x = true)
    (hd : P d = false) : x ≠ d := by
  intro he
  rw [he] at hx
  rw [hx] at hd
  cases hd

/-! Scanner lemmas. -/

theorem takeWhile_append_all {p : Char → Bool} {l : List Char} (r : List Char)
    (h : ∀ c ∈ l, p c = true) :
    (l ++ r).takeWhile p = l ++ r.takeWhile p := by
  induction l with
  | nil => rfl
  | cons c cs ih =>
    simp [List.takeWhile_cons, h c (List.mem_cons_self c cs),
      ih (fun x hx => h x (List.mem_cons_of_mem c hx))]

/-- The `/ipfs/` search skips every position whose character cannot open
the pattern. -/
theorem ipfsPathSearch_skip (l : List Char) (tail : List Char)
    (h : ∀ c ∈ l, Char.toLower c ≠ '/') :
    ipfsPathSearch (l ++ tail) = ipfsPathSearch tail := by
  induction l with
  | nil => rfl
  | cons c cs ih =>
    have hc : ( '/' == c.toLower) = false :=
      beq_eq_false_iff_ne.mpr (fun he => h c (List.mem_cons_self c cs) he.symm)
    simp only [List.cons_append, ipfsPathSearch, startsWithCI, slashIpfsPat, hc,
      Bool.false_and, if_false]
    exact ih (fun x hx => h x (List.mem_cons_of_mem c hx))

theorem ipfsPathSearch_none (l : List Char)
    (h : ∀ c ∈ l, Char.toLower c ≠ '/') : ipfsPathSearch l = none := by
  have h2 := ipfsPathSearch_skip l [] h
  rw [List.append_nil] at h2
  rw [h2]
  rfl

/-- A match of the `hcs://` literal forces a colon (after lowering) into
the scanned list. -/
theorem startsWithCI_hcs_colon (l : List Char)
    (h : startsWithCI hcsPat l = true) : ∃ c ∈ l, Char.toLower c = ':' := by
  match l with
  | [] => cases h
  | [c0] => simp [hcsPat, startsWithCI] at h
  | [c0, c1] => simp [hcsPat, startsWithCI] at h
  | [c0, c1, c2] => simp [hcsPat, startsWithCI] at h
  | c0 :: c1 :: c2 :: c3 :: rest =>
    simp only [hcsPat, startsWithCI, Bool.and_eq_true, beq_iff_eq] at h
    exact ⟨c3, by simp, h.2.2.2.1.symm⟩

theorem containsHcsCI_false (l : List Char)
    (h : ∀ c ∈ l, Char.toLower c ≠ ':') : containsHcsCI l = false := by
  induction l with
  | nil => rfl
  | cons c cs ih =>
    unfold containsHcsCI
    cases hs : startsWithCI hcsPat (c :: cs) with
    | true =>
      rcases startsWithCI_hcs_colon _ hs with ⟨x, hx, hcol⟩
      exact absurd hcol (h x hx)
    | false =>
      rw [Bool.false_or]
      exact ih (fun x hx => h x (List.mem_cons_of_mem c hx))

theorem takeUntilSlash_all {l : List Char} (h : ∀ c ∈ l, c ≠ '/') :
    takeUntilSlash l = l :=
  takeWhile_all (fun c hc => bne_iff_ne.mpr (h c hc))

theorem takeUntilSlash_append {l : List Char} (r : List Char)
    (h : ∀ c ∈ l, c ≠ '/') : takeUntilSlash (l ++ '/' :: r) = l :=
  takeWhile_append_stop (fun c hc => bne_iff_ne.mpr (h c hc))
    (Or.inr ⟨ '/', r, rfl, by decide⟩)

theorem lastSegment_append (xs l : List Char) (h : ∀ c ∈ l, c ≠ '/') :
    lastSegment (xs ++ '/' :: l) = l := by
  unfold lastSegment
  simp only [List.reverse_append, List.reverse_cons, List.append_assoc,
    List.singleton_append]
  rw [takeWhile_append_stop
    (fun c hc => bne_iff_ne.mpr (h c (List.mem_reverse.mp hc)))
    (Or.inr ⟨ '/', xs.reverse, rfl, by decide⟩)]
  exact List.reverse_reverse l

/-! Per-shape resolution lemmas. -/

theorem extract_mk (l : List Char) :
    extractCIDFromUrl (some (String.mk l)) =
      (extractCore l).map (fun r => String.mk r) := rfl

theorem extract_ar (id rest : List Char) (hne : id ≠ [])
    (h : ∀ c ∈ id, c ≠ '/') :
    extractCIDFromUrl (some (String.mk (arPat ++ id))) = some (String.mk id) ∧
    extractCIDFromUrl (some (String.mk (arPat ++ id ++ '/' :: rest))) =
      some (String.mk id) := by
  constructor
  · rw [extract_mk]
    have hts : takeUntilSlash id = id := takeUntilSlash_all h
    simp +decide [extractCore, arPat, startsWithCI, hts, List.isEmpty]
  · rw [extract_mk]
    have hts : takeUntilSlash (id ++ '/' :: rest) = id := takeUntilSlash_append rest h
    simp +decide [extractCore, arPat, startsWithCI, List.append_assoc, hts,
      List.isEmpty]

theorem extract_ipfs_proto (id rest : List Char) (hne : id ≠ [])
    (h : ∀ c ∈ id, c ≠ '/') :
    extractCIDFromUrl (some (String.mk (ipfsPat ++ id))) = some (String.mk id) ∧
    extractCIDFromUrl (some (String.mk (ipfsPat ++ id ++ '/' :: rest))) =
      some (String.mk id) := by
  constructor
  · rw [extract_mk]
    have hts : takeUntilSlash id = id := takeUntilSlash_all h
    simp +decide [extractCore, ipfsPat, startsWithCI, arPat, arweaveGatewayMatch,
      schemeSplit, httpsPat, httpPat, hts, List.isEmpty]
  · rw [extract_mk]
    have hts : takeUntilSlash (id ++ '/' :: rest) = id := takeUntilSlash_append rest h
    simp +decide [extractCore, ipfsPat, startsWithCI, arPat, arweaveGatewayMatch,
      schemeSplit, httpsPat, httpPat, List.append_assoc, hts, List.isEmpty]

theorem extract_arweave_net (id rest : List Char) (hne : id ≠ [])
    (h : ∀ c ∈ id, c ≠ '/' ∧ c ≠ '\n') :
    extractCIDFromUrl
        (some (String.mk ("https://arweave.net/".toList ++ id))) =
      some (String.mk id) ∧
    extractCIDFromUrl
        (some (String.mk ("https://arweave.net/".toList ++ id ++ '/' :: rest))) =
      some (String.mk id) := by
  obtain ⟨c0, id2, rfl⟩ : ∃ c0 id2, id = c0 :: id2 := by
    cases id with
    | nil => exact absurd rfl hne
    | cons a b => exact ⟨a, b, rfl⟩
  have hpre : "https://arweave.net/".toList =
      ['h', 't', 't', 'p', 's', ':', '/', '/',
       'a', 'r', 'w', 'e', 'a', 'v', 'e', '.', 'n', 'e', 't', '/'] := rfl
  have hnl : ∀ x ∈ c0 :: id2, (x != '\n') = true :=
    fun x hx => bne_iff_ne.mpr (h x hx).2
  have hsl : ∀ x ∈ c0 :: id2, (x != '/') = true :=
    fun x hx => bne_iff_ne.mpr (h x hx).1
  have hc0n : (c0 == '\n') = false :=
    beq_eq_false_iff_ne.mpr (h c0 (List.mem_cons_self _ _)).2
  constructor
  · rw [extract_mk]
    have htw : ((c0 :: id2).takeWhile (fun x => x != '\n')).takeWhile
        (fun x => x != '/') = c0 :: id2 := by
      rw [takeWhile_all hnl, takeWhile_all hsl]
    simp +decide [extractCore, arPat, startsWithCI, arweaveGatewayMatch,
      schemeSplit, httpsPat, hpre, arweaveDomains, List.find?, hc0n, htw,
      List.isEmpty]
  · rw [extract_mk]
    have htw : ((c0 :: (id2 ++ '/' :: rest)).takeWhile (fun x => x != '\n')).takeWhile
        (fun x => x != '/') = c0 :: id2 := by
      rw [← List.cons_append]
      rw [takeWhile_append_all ('/' :: rest) hnl]
      rw [List.takeWhile_cons]
      norm_num
      exact takeWhile_append_stop hsl (Or.inr ⟨ '/', _, rfl, by decide⟩)
    simp +decide [extractCore, arPat, startsWithCI, arweaveGatewayMatch,
      schemeSplit, httpsPat, hpre, arweaveDomains, List.find?, hc0n, htw,
      List.append_assoc, List.isEmpty]

theorem extract_gateway_path (id : List Char) (hne : id ≠ [])
    (h : ∀ c ∈ id, c ≠ '/' ∧ c ≠ '?' ∧ c ≠ '#') :
    extractCIDFromUrl
        (some (String.mk ("https://cloudflare-ipfs.com/ipfs/".toList ++ id))) =
      some (String.mk id) := by
  obtain ⟨c0, id2, rfl⟩ : ∃ c0 id2, id = c0 :: id2 := by
    cases id with
    | nil => exact absurd rfl hne
    | cons a b => exact ⟨a, b, rfl⟩
  have hpre : "https://cloudflare-ipfs.com/ipfs/".toList =
      ['h', 't', 't', 'p', 's', ':', '/', '/',
       'c', 'l', 'o', 'u', 'd', 'f', 'l', 'a', 'r', 'e', '-', 'i', 'p', 'f',
       's', '.', 'c', 'o', 'm', '/', 'i', 'p', 'f', 's', '/'] := rfl
  have hseg : (c0 :: id2).takeWhile ipfsSegChar = c0 :: id2 :=
    takeWhile_all (fun c hc => by
      simp only [ipfsSegChar, Bool.and_eq_true, bne_iff_ne]
      exact ⟨⟨(h c hc).1, (h c hc).2.1⟩, (h c hc).2.2⟩)
  rw [extract_mk]
  simp +decide [extractCore, arPat, startsWithCI, arweaveGatewayMatch,
    schemeSplit, httpsPat, httpPat, hpre, arweaveDomains, List.find?, ipfsPat,
    ipfsPathSearch, slashIpfsPat, hseg, List.isEmpty]

/-- URL-safe label characters of a subdomain (alphanumeric). -/
def urlSafeChars : List Char :=
  "0123456789ABCDEFGHIJKLMNOPQRSTUVWXYZabcdefghijklmnopqrstuvwxyz".toList

theorem extract_subdomain (hd : Char) (tl : List Char)
    (hhd : hd ∈ (['Q', 'b', 'B'] : List Char))
    (htl : ∀ c ∈ tl, c ∈ urlSafeChars) :
    extractCIDFromUrl (some (String.mk
        (httpsPat ++ (hd :: tl) ++ ".ipfs.dweb.link/meta.json".toList))) =
      some (String.mk (hd :: tl)) := by
  have hsafe : ∀ c ∈ urlSafeChars, Char.toLower c ≠ '/' ∧ c ≠ '.' := by decide
  have hsuf : ".ipfs.dweb.link/meta.json".toList =
      ['.', 'i', 'p', 'f', 's', '.', 'd', 'w', 'e', 'b', '.', 'l', 'i', 'n',
       'k', '/', 'm', 'e', 't', 'a', '.', 'j', 's', 'o', 'n'] := rfl
  simp only [List.mem_cons, List.not_mem_nil, or_false] at hhd
  obtain ⟨hfa, hfp, hfi, hfs, hfd, hfd2⟩ :
      ( 'a' == hd.toLower) = false ∧ ( 'p' == hd.toLower) = false ∧
      ( 'i' == hd.toLower) = false ∧ ( '/' == hd.toLower) = false ∧
      (hd != '.') = true ∧ ¬(hd = '.') := by
    rcases hhd with rfl | rfl | rfl <;>
      exact ⟨by decide, by decide, by decide, by decide, by decide, by decide⟩
  have hslashlow : ∀ c ∈ tl, Char.toLower c ≠ '/' :=
    fun c hc => (hsafe c (htl c hc)).1
  have htk : List.takeWhile (fun c => c != '.')
      (hd :: (tl ++ ['.', 'i', 'p', 'f', 's', '.', 'd', 'w', 'e', 'b', '.',
        'l', 'i', 'n', 'k', '/', 'm', 'e', 't', 'a', '.', 'j', 's', 'o', 'n'])) =
      hd :: tl := by
    rw [← List.cons_append]
    exact takeWhile_append_stop
      (by
        intro c hc
        rcases List.mem_cons.mp hc with rfl | hc2
        · exact hfd
        · exact bne_iff_ne.mpr (hsafe c (htl c hc2)).2)
      (Or.inr ⟨ '.', _, rfl, by decide⟩)
  have hdrop : List.drop (hd :: tl).length
      (hd :: (tl ++ ['.', 'i', 'p', 'f', 's', '.', 'd', 'w', 'e', 'b', '.',
        'l', 'i', 'n', 'k', '/', 'm', 'e', 't', 'a', '.', 'j', 's', 'o', 'n'])) =
      ['.', 'i', 'p', 'f', 's', '.', 'd', 'w', 'e', 'b', '.', 'l', 'i', 'n',
       'k', '/', 'm', 'e', 't', 'a', '.', 'j', 's', 'o', 'n'] := by
    rw [← List.cons_append]
    exact List.drop_left _ _
  rw [extract_mk]
  simp +decide [extractCore, arPat, startsWithCI, arweaveGatewayMatch,
    schemeSplit, httpsPat, httpPat, arweaveDomains, List.find?, ipfsPat, hsuf,
    hfa, hfp, hfi, hfs, ipfsPathSearch, slashIpfsPat, List.append_assoc,
    List.isEmpty]
  rw [ipfsPathSearch_skip tl _ hslashlow]
  have hscan : ipfsPathSearch
      ['.', 'i', 'p', 'f', 's', '.', 'd', 'w', 'e', 'b', '.', 'l', 'i', 'n',
       'k', '/', 'm', 'e', 't', 'a', '.', 'j', 's', 'o', 'n'] = none := by decide
  rw [hscan]
  simp +decide [subdomainMatch, schemeSplit, httpsPat, startsWithCI, htk, hfd2,
    hdrop, dotIpfsPat, List.isEmpty]

/-- Characters of a consensus-topic id (`0.0.N`). -/
def hcsTopicChars : List Char :=
  ['0', '1', '2', '3', '4', '5', '6', '7', '8', '9', '.']

theorem extract_hcs (topic : List Char) (hne : topic ≠ [])
    (h : ∀ c ∈ topic, c ∈ hcsTopicChars) :
    extractCIDFromUrl (some (String.mk
        (['h', 'c', 's', ':', '/', '/', '1', '/'] ++ topic))) =
      some (String.mk topic) := by
  have hfacts : ∀ c ∈ hcsTopicChars, Char.toLower c ≠ 'i' ∧ Char.toLower c ≠ '/' ∧
      Char.toLower c ≠ ':' ∧ c ≠ '/' := by decide
  obtain ⟨c0, tl, rfl⟩ : ∃ c0 tl, topic = c0 :: tl := by
    cases topic with
    | nil => exact absurd rfl hne
    | cons a b => exact ⟨a, b, rfl⟩
  have hfi : ( 'i' == c0.toLower) = false :=
    beq_eq_false_iff_ne.mpr
      (fun he => (hfacts c0 (h c0 (List.mem_cons_self _ _))).1 he.symm)
  have hlowtl : ∀ c ∈ tl, Char.toLower c ≠ '/' :=
    fun c hc => (hfacts c (h c (List.mem_cons_of_mem c0 hc))).2.1
  have hlow0 : Char.toLower c0 ≠ '/' :=
    (hfacts c0 (h c0 (List.mem_cons_self _ _))).2.1
  have hscan : ipfsPathSearch
      ('h' :: 'c' :: 's' :: ':' :: '/' :: '/' :: '1' :: '/' :: c0 :: tl) = none := by
    simp +decide [ipfsPathSearch, slashIpfsPat, startsWithCI, hfi,
      beq_eq_false_iff_ne.mpr (fun he => hlow0 he.symm)]
    exact ipfsPathSearch_none tl hlowtl
  have hhcs : containsHcsCI
      ('h' :: 'c' :: 's' :: ':' :: '/' :: '/' :: '1' :: '/' :: c0 :: tl) = true := by
    simp +decide [containsHcsCI, hcsPat, startsWithCI]
  have hlast : lastSegment
      ('h' :: 'c' :: 's' :: ':' :: '/' :: '/' :: '1' :: '/' :: c0 :: tl) = c0 :: tl := by
    have hsplit : ('h' :: 'c' :: 's' :: ':' :: '/' :: '/' :: '1' :: '/' :: c0 :: tl) =
        ['h', 'c', 's', ':', '/', '/', '1'] ++ '/' :: (c0 :: tl) := rfl
    rw [hsplit]
    exact lastSegment_append _ _ (fun c hc => (hfacts c (h c hc)).2.2.2)
  rw [extract_mk]
  simp +decide [extractCore, arPat, startsWithCI, arweaveGatewayMatch,
    schemeSplit, httpsPat, httpPat, subdomainMatch, ipfsPat, hscan, hhcs,
    hlast, List.cons_append, List.isEmpty]

theorem extract_bare_v0 (id : List Char) (h : matchQmV0 id = true) :
    extractCIDFromUrl (some (String.mk id)) = some (String.mk id) := by
  have horig := h
  match id with
  | [] => cases h
  | [c1] => cases h
  | c1 :: c2 :: rest =>
    simp only [matchQmV0, Bool.and_eq_true, beq_iff_eq] at h
    obtain ⟨⟨⟨h1, h2⟩, _hlen⟩, hall⟩ := h
    subst h1
    subst h2
    have hb58 : ∀ c ∈ rest, isBase58Char c = true := List.all_eq_true.mp hall
    have hlow : ∀ c ∈ 'Q' :: 'm' :: rest, Char.toLower c ≠ '/' := by
      intro c hc
      rcases List.mem_cons.mp hc with rfl | hc2
      · decide
      rcases List.mem_cons.mp hc2 with rfl | hc3
      · decide
      · exact toLower_ne_of_class isBase58Char c '/' (hb58 c hc3) (by decide) (by decide)
    have hcol : ∀ c ∈ 'Q' :: 'm' :: rest, Char.toLower c ≠ ':' := by
      intro c hc
      rcases List.mem_cons.mp hc with rfl | hc2
      · decide
      rcases List.mem_cons.mp hc2 with rfl | hc3
      · decide
      · exact toLower_ne_of_class isBase58Char c ':' (hb58 c hc3) (by decide) (by decide)
    have hslash : ∀ c ∈ 'Q' :: 'm' :: rest, c ≠ '/' := by
      intro c hc
      rcases List.mem_cons.mp hc with rfl | hc2
      · decide
      rcases List.mem_cons.mp hc2 with rfl | hc3
      · decide
      · exact ne_of_class isBase58Char c '/' (hb58 c hc3) (by decide)
    have h4 : ipfsPathSearch ('Q' :: 'm' :: rest) = none :=
      ipfsPathSearch_none _ hlow
    have h6 : containsHcsCI ('Q' :: 'm' :: rest) = false :=
      containsHcsCI_false _ hcol
    have hts : takeUntilSlash ('Q' :: 'm' :: rest) = 'Q' :: 'm' :: rest :=
      takeUntilSlash_all hslash
    rw [extract_mk]
    simp +decide [extractCore, arPat, startsWithCI, arweaveGatewayMatch,
      schemeSplit, httpsPat, httpPat, subdomainMatch, ipfsPat, h4, h6, hts,
      horig, List.isEmpty]

theorem extract_bare_v1 (id : List Char) (h : cidV1TestCI id = true) :
    extractCIDFromUrl (some (String.mk id)) = some (String.mk id) := by
  have horig := h
  match id with
  | [] => cases h
  | c :: rest =>
    simp only [cidV1TestCI, Bool.and_eq_true, beq_iff_eq] at h
    obtain ⟨⟨hb, _hlen⟩, hall⟩ := h
    have hb32 : ∀ x ∈ rest, isBase32Char x.toLower = true := List.all_eq_true.mp hall
    have hlow : ∀ x ∈ c :: rest, Char.toLower x ≠ '/' := by
      intro x hx
      rcases List.mem_cons.mp hx with rfl | hx2
      · rw [hb]; decide
      · intro he
        have hx3 := hb32 x hx2
        rw [he] at hx3
        exact absurd hx3 (by decide)
    have hcol : ∀ x ∈ c :: rest, Char.toLower x ≠ ':' := by
      intro x hx
      rcases List.mem_cons.mp hx with rfl | hx2
      · rw [hb]; decide
      · intro he
        have hx3 := hb32 x hx2
        rw [he] at hx3
        exact absurd hx3 (by decide)
    have hslash : ∀ x ∈ c :: rest, x ≠ '/' := by
      intro x hx he
      subst he
      rcases List.mem_cons.mp hx with h0 | hx2
      · rw [← h0] at hb
        exact absurd hb (by decide)
      · exact absurd (hb32 _ hx2) (by decide)
    have hfa : ( 'a' == c.toLower) = false := by rw [hb]; decide
    have hfh : ( 'h' == c.toLower) = false := by rw [hb]; decide
    have hfip : ( 'i' == c.toLower) = false := by rw [hb]; decide
    have h4 : ipfsPathSearch (c :: rest) = none := ipfsPathSearch_none _ hlow
    have h6 : containsHcsCI (c :: rest) = false := containsHcsCI_false _ hcol
    have hts : takeUntilSlash (c :: rest) = c :: rest := takeUntilSlash_all hslash
    rw [extract_mk]
    simp +decide [extractCore, arPat, startsWithCI, arweaveGatewayMatch,
      schemeSplit, httpsPat, httpPat, subdomainMatch, ipfsPat, h4, h6, hts,
      horig, hfa, hfh, hfip, List.isEmpty]

/-- C7 confirmed: each supported reference shape resolves to its expected
identifier under the rule order of the source — `ar://` (with or without
a path), a known Arweave gateway URL (with or without a further path),
`ipfs://` (with or without a path), a `/ipfs/`-path gateway URL, a
subdomain-style URL with a CID-shaped label, an `hcs://` reference, and
bare CIDv0/CIDv1 strings — while `null`/`undefined`, the empty string and
generic HTTP, S3 and data URLs resolve to `null`. -/
theorem C7_extract_resolution :
    (∀ id rest : List Char, id ≠ [] → (∀ c ∈ id, c ≠ '/') →
      extractCIDFromUrl (some (String.mk (arPat ++ id))) = some (String.mk id) ∧
      extractCIDFromUrl (some (String.mk (arPat ++ id ++ '/' :: rest))) =
        some (String.mk id)) ∧
    (∀ id rest : List Char, id ≠ [] → (∀ c ∈ id, c ≠ '/' ∧ c ≠ '\n') →
      extractCIDFromUrl
          (some (String.mk ("https://arweave.net/".toList ++ id))) =
        some (String.mk id) ∧
      extractCIDFromUrl
          (some (String.mk ("https://arweave.net/".toList ++ id ++ '/' :: rest))) =
        some (String.mk id)) ∧
    (∀ id rest : List Char, id ≠ [] → (∀ c ∈ id, c ≠ '/') →
      extractCIDFromUrl (some (String.mk (ipfsPat ++ id))) = some (String.mk id) ∧
      extractCIDFromUrl (some (String.mk (ipfsPat ++ id ++ '/' :: rest))) =
        some (String.mk id)) ∧
    (∀ id : List Char, id ≠ [] → (∀ c ∈ id, c ≠ '/' ∧ c ≠ '?' ∧ c ≠ '#') →
      extractCIDFromUrl
          (some (String.mk ("https://cloudflare-ipfs.com/ipfs/".toList ++ id))) =
        some (String.mk id)) ∧
    (∀ (hd : Char) (tl : List Char), hd ∈ (['Q', 'b', 'B'] : List Char) →
      (∀ c ∈ tl, c ∈ urlSafeChars) →
      extractCIDFromUrl (some (String.mk
          (httpsPat ++ (hd :: tl) ++ ".ipfs.dweb.link/meta.json".toList))) =
        some (String.mk (hd :: tl))) ∧
    (∀ topic : List Char, topic ≠ [] → (∀ c ∈ topic, c ∈ hcsTopicChars) →
      extractCIDFromUrl (some (String.mk
          (['h', 'c', 's', ':', '/', '/', '1', '/'] ++ topic))) =
        some (String.mk topic)) ∧
    (∀ id : List Char, matchQmV0 id = true →
      extractCIDFromUrl (some (String.mk id)) = some (String.mk id)) ∧
    (∀ id : List Char, cidV1TestCI id = true →
      extractCIDFromUrl (some (String.mk id)) = some (String.mk id)) ∧
    (extractCIDFromUrl none = none ∧
     extractCIDFromUrl (some "") = none ∧
     extractCIDFromUrl (some "https://example.com/image.png") = none ∧
     extractCIDFromUrl (some "https://mybucket.s3.amazonaws.com/key.json") = none ∧
     extractCIDFromUrl (some "data:application/json;base64,eyJhIjoxfQ==") = none) :=
  ⟨extract_ar, extract_arweave_net, extract_ipfs_proto, extract_gateway_path,
   extract_subdomain, extract_hcs, extract_bare_v0, extract_bare_v1,
   rfl, by decide, by decide, by decide, by decide⟩

/-- C7 witness: the quantified shapes instantiated at concrete references,
every hypothesis discharged by computation. -/
theorem C7_extract_resolution_witness :
    extractCIDFromUrl (some "ar://T3ST/x") = some "T3ST" ∧
    extractCIDFromUrl (some "https://arweave.net/T3STid") = some "T3STid" ∧
    extractCIDFromUrl
        (some "ipfs://QmYwAPJzv5CZsnA625s3Xf2nemtYgPpHdWEz79ojWnPbdG/1.json") =
      some "QmYwAPJzv5CZsnA625s3Xf2nemtYgPpHdWEz79ojWnPbdG" ∧
    extractCIDFromUrl
        (some "https://cloudflare-ipfs.com/ipfs/QmYwAPJzv5CZsnA625s3Xf2nemtYgPpHdWEz79ojWnPbdG") =
      some "QmYwAPJzv5CZsnA625s3Xf2nemtYgPpHdWEz79ojWnPbdG" ∧
    extractCIDFromUrl (some "https://bQm1.ipfs.dweb.link/meta.json") = some "bQm1" ∧
    extractCIDFromUrl (some "hcs://1/0.0.5270476") = some "0.0.5270476" ∧
    extractCIDFromUrl (some "QmYwAPJzv5CZsnA625s3Xf2nemtYgPpHdWEz79ojWnPbdG") =
      some "QmYwAPJzv5CZsnA625s3Xf2nemtYgPpHdWEz79ojWnPbdG" ∧
    extractCIDFromUrl
        (some "bafybeigdyrzt5sfp7udm7hu76uh7y26nf3efuylqabf3oclgtqy55fbzdi") =
      some "bafybeigdyrzt5sfp7udm7hu76uh7y26nf3efuylqabf3oclgtqy55fbzdi" :=
  ⟨(C7_extract_resolution.1 ['T', '3', 'S', 'T'] ['x'] (by decide) (by decide)).2,
   (C7_extract_resolution.2.1 ['T', '3', 'S', 'T', 'i', 'd'] []
     (by decide) (by decide)).1,
   (C7_extract_resolution.2.2.1
     "QmYwAPJzv5CZsnA625s3Xf2nemtYgPpHdWEz79ojWnPbdG".toList
     ['1', '.', 'j', 's', 'o', 'n'] (by decide) (by decide)).2,
   C7_extract_resolution.2.2.2.1
     "QmYwAPJzv5CZsnA625s3Xf2nemtYgPpHdWEz79ojWnPbdG".toList
     (by decide) (by decide),
   C7_extract_resolution.2.2.2.2.1 'b' ['Q', 'm', '1'] (by decide) (by decide),
   C7_extract_resolution.2.2.2.2.2.1
     ['0', '.', '0', '.', '5', '2', '7', '0', '4', '7', '6'] (by decide) (by decide),
   C7_extract_resolution.2.2.2.2.2.2.1
     "QmYwAPJzv5CZsnA625s3Xf2nemtYgPpHdWEz79ojWnPbdG".toList (by decide),
   C7_extract_resolution.2.2.2.2.2.2.2.1
     "bafybeigdyrzt5sfp7udm7hu76uh7y26nf3efuylqabf3oclgtqy55fbzdi".toList
     (by decide)⟩

end NftStaticData
